import Mathlib

/-!
Room occupancy controller (`Src/room_control.c`)

A shallow embedding of the controller's logic.  The three file-scope variables
`current_state`, `led_on_time` and `g_pwm_duty` become fields of `Room`; the
calls into the peripheral drivers (`tim3_ch1_pwm_set_duty_cycle`, `uart_send`,
`uart_send_string`) are recorded, in program order, in the field `trace`; the
tick counter `systick_get_ms` is an oracle `clk : Nat → Nat` giving the value of
the i-th reading, and the field `reads` counts the readings taken so far.

Machine integers are natural numbers reduced explicitly: `uint8_t` modulo 256,
`uint32_t` modulo 2^32.  The constants `PWM_INITIAL_DUTY` and `LED_TIMEOUT_MS`
come from `room_control.h`, which is not part of the sources; they are
parameters of the functions that use them.
-/

namespace RoomControl

/-- Occupancy states, `room_state_t`. -/
inductive room_state_t where
  | ROOM_IDLE
  | ROOM_OCCUPIED
  deriving DecidableEq, Repr

open room_state_t

/-- One call into a peripheral driver. -/
inductive Event where
  /-- A call `tim3_ch1_pwm_set_duty_cycle(d)`. -/
  | pwm (d : Nat)
  /-- A call `uart_send_string(s)`. -/
  | str (s : String)
  /-- A call `uart_send(c)`. -/
  | chr (c : Char)
  deriving DecidableEq, Repr

/-- The controller's variables together with the record of its driver calls. -/
structure Room where
  /-- The variable `current_state`. -/
  current_state : room_state_t
  /-- The variable `led_on_time` (`uint32_t`). -/
  led_on_time : Nat
  /-- The variable `g_pwm_duty` (`uint8_t`). -/
  g_pwm_duty : Nat
  /-- Number of readings of the tick counter taken so far. -/
  reads : Nat
  /-- Driver calls made so far, oldest first. -/
  trace : List Event
  deriving DecidableEq, Repr

/-- Subtraction of two `uint32_t` values, modulo 2^32. -/
def sub32 (a b : Nat) : Nat :=
  (a % 4294967296 + 4294967296 - b % 4294967296) % 4294967296

/-- The characters put on the serial line by a sequence of driver calls. -/
def serial : List Event → List Char
  | [] => []
  | Event.pwm _ :: es => serial es
  | Event.str s :: es => s.toList ++ serial es
  | Event.chr c :: es => c :: serial es

/-- The duty values handed to the PWM driver by a sequence of driver calls. -/
def pwmWrites : List Event → List Nat
  | [] => []
  | Event.pwm d :: es => d :: pwmWrites es
  | Event.str _ :: es => pwmWrites es
  | Event.chr _ :: es => pwmWrites es

/-- The driver call `tim3_ch1_pwm_set_duty_cycle(duty)`. -/
def tim3_ch1_pwm_set_duty_cycle (duty : Nat) (w : Room) : Room :=
  { w with trace := w.trace ++ [Event.pwm duty] }

/-- The driver call `uart_send_string(s)`. -/
def uart_send_string (s : String) (w : Room) : Room :=
  { w with trace := w.trace ++ [Event.str s] }

/-- The driver call `uart_send(c)`. -/
def uart_send (c : Char) (w : Room) : Room :=
  { w with trace := w.trace ++ [Event.chr c] }

/-- The driver call `systick_get_ms()`: the next reading of the 32-bit tick
counter, and the room with that reading consumed. -/
def systick_get_ms (clk : Nat → Nat) (w : Room) : Nat × Room :=
  (clk w.reads % 4294967296, { w with reads := w.reads + 1 })

/-- `room_set_pwm(duty)`: the argument is converted to `uint8_t`, handed to the
PWM driver and stored in `g_pwm_duty`. -/
def room_set_pwm (duty : Nat) (w : Room) : Room :=
  let d := duty % 256
  let w1 := tim3_ch1_pwm_set_duty_cycle d w
  { w1 with g_pwm_duty := d }

/-- `room_control_get_pwm_duty()`. -/
def room_control_get_pwm_duty (w : Room) : Nat :=
  w.g_pwm_duty

/-- `uart_send_uint8(v)`, with `v` a `uint8_t`. -/
def uart_send_uint8 (v : Nat) (w : Room) : Room :=
  if v ≥ 100 then
    uart_send '0' (uart_send '0' (uart_send '1' w))
  else if v ≥ 10 then
    uart_send (Char.ofNat ('0'.toNat + v % 10)) (uart_send (Char.ofNat ('0'.toNat + v / 10)) w)
  else
    uart_send (Char.ofNat ('0'.toNat + v)) w

/-- `room_control_send_status()`. -/
def room_control_send_status (w : Room) : Room :=
  let w1 := uart_send_string "Estado actual de la sala: " w
  if w1.current_state = ROOM_IDLE then
    uart_send_string "VACÍA\r\n" w1
  else
    uart_send_string "OCUPADA\r\n" w1

/-- `room_control_app_init()`. -/
def room_control_app_init (PWM_INITIAL_DUTY : Nat) (w : Room) : Room :=
  let w1 := room_set_pwm PWM_INITIAL_DUTY w
  let w2 := { w1 with current_state := ROOM_IDLE }
  let w3 := uart_send_string "Controlador de Sala v2.0" w2
  let w4 := uart_send_string "Sistema inicializado:\r\n" w3
  let w5 := uart_send_string "PWM: 20%\r\n" w4
  let w6 := uart_send_string "Puerta cerrada\r\n" w5
  room_control_send_status w6

/-- `room_control_on_button_press()`. -/
def room_control_on_button_press (clk : Nat → Nat) (w : Room) : Room :=
  if w.current_state = ROOM_IDLE then
    let w1 := { w with current_state := ROOM_OCCUPIED }
    let w2 := room_set_pwm 100 w1
    let r := systick_get_ms clk w2
    let w3 := { r.2 with led_on_time := r.1 }
    uart_send_string "Sala ocupada\r\n" w3
  else
    let w1 := { w with current_state := ROOM_IDLE }
    let w2 := room_set_pwm 0 w1
    uart_send_string "Sala vacía\r\n" w2

/-- The busy-wait `while ((systick_get_ms() - start) < 500U) { }` of the ramp:
`fuel` bounds the number of readings taken; `none` when the bound is reached
before the loop condition fails. -/
def busy_wait (clk : Nat → Nat) (start : Nat) : Nat → Room → Option Room
  | 0, _ => none
  | fuel + 1, w =>
    let r := systick_get_ms clk w
    if sub32 r.1 start < 500 then busy_wait clk start fuel r.2 else some r.2

/-- The body of the ramp's `for` loop for one value of `duty`. -/
def ramp_body (fuel : Nat) (clk : Nat → Nat) (duty : Nat) (w : Room) : Option Room :=
  let w1 := room_set_pwm duty w
  let w2 := uart_send_string "PWM: " w1
  let w3 := uart_send_uint8 duty w2
  let w4 := uart_send_string "%\r\n" w3
  let r := systick_get_ms clk w4
  busy_wait clk r.1 fuel r.2

/-- The loop `for (uint8_t duty = 0; duty <= 100; duty += 10)` entered with the
counter at `duty`: `n` bounds the number of evaluations of the loop condition,
`fuel` the readings of each busy-wait. -/
def ramp_loop (fuel : Nat) (clk : Nat → Nat) : Nat → Nat → Room → Option Room
  | 0, _, _ => none
  | n + 1, duty, w =>
    if duty ≤ 100 then
      match ramp_body fuel clk duty w with
      | none => none
      | some w1 => ramp_loop fuel clk n ((duty + 10) % 256) w1
    else some w

/-- `room_control_on_uart_receive(received_char)`.  The `switch` is written as a
chain of tests in the order of its `case` labels.  Only the ramp (`g`, `G`) has
loops; `fuel` bounds them and the result is `none` when the bound is reached. -/
def room_control_on_uart_receive (fuel : Nat) (clk : Nat → Nat) (received_char : Char)
    (w : Room) : Option Room :=
  if received_char = 'h' ∨ received_char = 'H' then
    some (uart_send_string "PWM: 100%\r\n" (room_set_pwm 100 w))
  else if received_char = 'l' ∨ received_char = 'L' then
    some (uart_send_string "PWM: 0%\r\n" (room_set_pwm 0 w))
  else if received_char = 'O' ∨ received_char = 'o' then
    let w1 := { w with current_state := ROOM_OCCUPIED }
    let w2 := room_set_pwm 100 w1
    let r := systick_get_ms clk w2
    let w3 := { r.2 with led_on_time := r.1 }
    some (uart_send_string "Sala ocupada\r\n" w3)
  else if received_char = 'I' ∨ received_char = 'i' then
    let w1 := { w with current_state := ROOM_IDLE }
    let w2 := room_set_pwm 0 w1
    some (uart_send_string "Sala vacía\r\n" w2)
  else if received_char = 's' ∨ received_char = 'S' then
    some (room_control_send_status w)
  else if received_char = 'g' ∨ received_char = 'G' then
    ramp_loop fuel clk fuel 0 w
  else if received_char = '?' then
    let w1 := uart_send_string "Comandos disponibles:\r\n" w
    let w2 := uart_send_string "H: PWM 100%\r\n" w1
    let w3 := uart_send_string "L: PWM 0%\r\n" w2
    let w4 := uart_send_string "O: Marcar sala como OCUPADA\r\n" w3
    let w5 := uart_send_string "I: Marcar sala como VACÍA\r\n" w4
    let w6 := uart_send_string "S: Enviar estado actual de la sala\r\n" w5
    let w7 := uart_send_string "G: Rampa de PWM de 0% a 100%\r\n" w6
    some (uart_send_string "1-5: Establecer PWM a 10%,20%,30%,40%,50%\r\n" w7)
  else if received_char = '1' then
    some (uart_send_string "PWM: 10%\r\n" (room_set_pwm 10 w))
  else if received_char = '2' then
    some (uart_send_string "PWM: 20%\r\n" (room_set_pwm 20 w))
  else if received_char = '3' then
    some (uart_send_string "PWM: 30%\r\n" (room_set_pwm 30 w))
  else if received_char = '4' then
    some (uart_send_string "PWM: 40%\r\n" (room_set_pwm 40 w))
  else if received_char = '5' then
    some (uart_send_string "PWM: 50%\r\n" (room_set_pwm 50 w))
  else
    let w1 := uart_send_string "Comando desconocido: " w
    let w2 := uart_send received_char w1
    some (uart_send_string "\r\n" w2)

/-- `room_control_update()`.  The tick counter is read only when the room is
occupied. -/
def room_control_update (LED_TIMEOUT_MS : Nat) (clk : Nat → Nat) (w : Room) : Room :=
  if w.current_state = ROOM_OCCUPIED then
    let r := systick_get_ms clk w
    if sub32 r.1 r.2.led_on_time ≥ LED_TIMEOUT_MS then
      let w1 := { r.2 with current_state := ROOM_IDLE }
      let w2 := tim3_ch1_pwm_set_duty_cycle 0 w1
      uart_send_string "Timeout: Sala vacía\r\n" w2
    else r.2
  else w

/-- The variables as the C initialisers leave them, before any call. -/
def boot (PWM_INITIAL_DUTY : Nat) : Room :=
  { current_state := ROOM_IDLE, led_on_time := 0, g_pwm_duty := PWM_INITIAL_DUTY % 256,
    reads := 0, trace := [] }

/-- The last duty value handed to the PWM driver, if any. -/
def lastPwm (es : List Event) : Option Nat :=
  (pwmWrites es).getLast?

/-! ## Notions used to state the properties -/

/-- The tick counter keeps advancing: after every reading there is a later one
that is at least 500 ms ahead of it in 32-bit arithmetic. -/
def clock_advances (clk : Nat → Nat) : Prop :=
  ∀ i, ∃ j, i < j ∧ 500 ≤ sub32 (clk j % 4294967296) (clk i % 4294967296)

/-- The driver calls of one ramp step for the duty `d`: the PWM write, then the
three parts of the line `PWM: d%`. -/
def ramp_line (d : Nat) : List Event :=
  [Event.pwm d, Event.str "PWM: "] ++ (Nat.repr d).toList.map Event.chr ++ [Event.str "%\r\n"]

/-- Index of the first reading after reading `i` that is at least 500 ms ahead
of reading `i`. -/
def exit_reading (clk : Nat → Nat) (h : clock_advances clk) (i : Nat) : Nat :=
  Nat.find (h i)

/-- Number of readings consumed once `k` ramp steps have run, starting from
`r0` readings. -/
def reads_after (clk : Nat → Nat) (h : clock_advances clk) (r0 : Nat) : Nat → Nat
  | 0 => r0
  | k + 1 => exit_reading clk h (reads_after clk h r0 k) + 1

/-- The room once `k` ramp steps have run from `w`. -/
def ramp_state (clk : Nat → Nat) (h : clock_advances clk) (w : Room) (k : Nat) : Room :=
  { w with
    g_pwm_duty := if k = 0 then w.g_pwm_duty else 10 * (k - 1)
    reads := reads_after clk h w.reads k
    trace := w.trace ++ (List.range k).flatMap (fun i => ramp_line (10 * i)) }

/-- A call of one of the entry points the surrounding runtime uses after
initialisation: `room_control_on_button_press()`,
`room_control_on_uart_receive(c)`, `room_control_update()` and
`room_control_send_status()`. -/
inductive Call where
  | button
  | uart (c : Char)
  | update
  | status
  deriving DecidableEq, Repr

/-- The room an entry-point call returns with; `none` when the call is a ramp
that has not returned within `fuel`. -/
def step (fuel LED_TIMEOUT_MS : Nat) (clk : Nat → Nat) : Call → Room → Option Room
  | Call.button, w => some (room_control_on_button_press clk w)
  | Call.uart c, w => room_control_on_uart_receive fuel clk c w
  | Call.update, w => some (room_control_update LED_TIMEOUT_MS clk w)
  | Call.status, w => some (room_control_send_status w)

/-- The rooms the program can be in between calls: `room_control_app_init()`
run on the power-on variables, followed by any sequence of entry-point calls
that returned. -/
inductive Reachable (PWM_INITIAL_DUTY LED_TIMEOUT_MS : Nat) (clk : Nat → Nat) : Room → Prop where
  | init : Reachable PWM_INITIAL_DUTY LED_TIMEOUT_MS clk
      (room_control_app_init PWM_INITIAL_DUTY (boot PWM_INITIAL_DUTY))
  | call (fuel : Nat) (c : Call) (w w1 : Room) :
      Reachable PWM_INITIAL_DUTY LED_TIMEOUT_MS clk w →
      step fuel LED_TIMEOUT_MS clk c w = some w1 →
      Reachable PWM_INITIAL_DUTY LED_TIMEOUT_MS clk w1

/-- The recorded duty and every duty handed to the PWM driver so far are
percentages. -/
def duty_in_range (w : Room) : Prop :=
  w.g_pwm_duty ≤ 100 ∧ ∀ d ∈ pwmWrites w.trace, d ≤ 100

/-- Something the ramp does that can be observed from outside, in program
order: a driver call, or a reading of the tick counter with the value read. -/
inductive Obs where
  | call (e : Event)
  | tick (ms : Nat)
  deriving DecidableEq, Repr

/-- A room together with the observations made so far, oldest first. -/
structure Run where
  room : Room
  log : List Obs
  deriving DecidableEq, Repr

/-- `room_set_pwm(duty)`, observed. -/
def logged_set_pwm (duty : Nat) (x : Run) : Run :=
  { room := room_set_pwm duty x.room, log := x.log ++ [Obs.call (Event.pwm (duty % 256))] }

/-- `uart_send_string(s)`, observed. -/
def logged_send_string (s : String) (x : Run) : Run :=
  { room := uart_send_string s x.room, log := x.log ++ [Obs.call (Event.str s)] }

/-- `uart_send(c)`, observed. -/
def logged_send (c : Char) (x : Run) : Run :=
  { room := uart_send c x.room, log := x.log ++ [Obs.call (Event.chr c)] }

/-- `uart_send_uint8(v)`, observed. -/
def logged_send_uint8 (v : Nat) (x : Run) : Run :=
  if v ≥ 100 then
    logged_send '0' (logged_send '0' (logged_send '1' x))
  else if v ≥ 10 then
    logged_send (Char.ofNat ('0'.toNat + v % 10))
      (logged_send (Char.ofNat ('0'.toNat + v / 10)) x)
  else
    logged_send (Char.ofNat ('0'.toNat + v)) x

/-- `systick_get_ms()`, observed: the reading is appended to the log. -/
def logged_systick (clk : Nat → Nat) (x : Run) : Nat × Run :=
  ((systick_get_ms clk x.room).1,
   { room := (systick_get_ms clk x.room).2,
     log := x.log ++ [Obs.tick (systick_get_ms clk x.room).1] })

/-- The busy-wait `while ((systick_get_ms() - start) < 500U) { }`, observed. -/
def logged_busy_wait (clk : Nat → Nat) (start : Nat) : Nat → Run → Option Run
  | 0, _ => none
  | fuel + 1, x =>
    let r := logged_systick clk x
    if sub32 r.1 start < 500 then logged_busy_wait clk start fuel r.2 else some r.2

/-- The body of the ramp's `for` loop, observed. -/
def logged_ramp_body (fuel : Nat) (clk : Nat → Nat) (duty : Nat) (x : Run) : Option Run :=
  let x1 := logged_set_pwm duty x
  let x2 := logged_send_string "PWM: " x1
  let x3 := logged_send_uint8 duty x2
  let x4 := logged_send_string "%\r\n" x3
  let r := logged_systick clk x4
  logged_busy_wait clk r.1 fuel r.2

/-- The ramp's `for` loop, observed. -/
def logged_ramp_loop (fuel : Nat) (clk : Nat → Nat) : Nat → Nat → Run → Option Run
  | 0, _, _ => none
  | n + 1, duty, x =>
    if duty ≤ 100 then
      match logged_ramp_body fuel clk duty x with
      | none => none
      | some x1 => logged_ramp_loop fuel clk n ((duty + 10) % 256) x1
    else some x

/-- The readings of the tick counter with indices `s`, ..., `e`, as
observations. -/
def wait_ticks (clk : Nat → Nat) (s e : Nat) : List Obs :=
  (List.range' s (e + 1 - s)).map (fun i => Obs.tick (clk i % 4294967296))

/-- The driver calls among a list of observations. -/
def calls : List Obs → List Event
  | [] => []
  | Obs.call e :: os => e :: calls os
  | Obs.tick _ :: os => calls os

/-- The run once `k` ramp steps have run from `x`. -/
def logged_ramp_state (clk : Nat → Nat) (h : clock_advances clk) (x : Run) (k : Nat) : Run :=
  { room := ramp_state clk h x.room k
    log := x.log ++ (List.range k).flatMap (fun i =>
      (ramp_line (10 * i)).map Obs.call ++
        wait_ticks clk (reads_after clk h x.room.reads i)
          (exit_reading clk h (reads_after clk h x.room.reads i))) }

/-! ## Auxiliary lemmas -/

theorem press_state (clk : Nat → Nat) (w : Room) :
    (room_control_on_button_press clk w).current_state =
      if w.current_state = ROOM_IDLE then ROOM_OCCUPIED else ROOM_IDLE := by
  unfold room_control_on_button_press
  split <;> simp [uart_send_string, room_set_pwm, tim3_ch1_pwm_set_duty_cycle, systick_get_ms]

theorem init_state (P : Nat) (w : Room) :
    (room_control_app_init P w).current_state = ROOM_IDLE := by
  simp [room_control_app_init, room_control_send_status, uart_send_string, room_set_pwm,
    tim3_ch1_pwm_set_duty_cycle]

theorem uart_send_uint8_eq (v : Nat) (w : Room) (hv : v ≤ 100) :
    uart_send_uint8 v w = { w with trace := w.trace ++ (Nat.repr v).toList.map Event.chr } := by
  interval_cases v <;> simp [uart_send_uint8, uart_send] <;> decide

theorem busy_wait_exit (clk : Nat → Nat) (start j : Nat) :
    ∀ (fuel : Nat) (w : Room), w.reads ≤ j →
      (∀ k, w.reads ≤ k → k < j → sub32 (clk k % 4294967296) start < 500) →
      500 ≤ sub32 (clk j % 4294967296) start → j - w.reads < fuel →
      busy_wait clk start fuel w = some { w with reads := j + 1 } := by
  intro fuel
  induction fuel with
  | zero => intro w _ _ _ hf; omega
  | succ fuel ih =>
    intro w hle hbelow hj hf
    rcases Nat.eq_or_lt_of_le hle with heq | hlt
    · have hj2 : ¬ sub32 (clk j % 4294967296) start < 500 := by omega
      simp [busy_wait, systick_get_ms, hj2, heq]
    · have hlow := hbelow w.reads (Nat.le_refl _) hlt
      have := ih { w with reads := w.reads + 1 } (by simpa using hlt)
        (fun k hk hkj => hbelow k (by simp at hk; omega) hkj) hj (by simp; omega)
      simpa [busy_wait, systick_get_ms, hlow] using this

theorem exit_reading_spec (clk : Nat → Nat) (h : clock_advances clk) (i : Nat) :
    i < exit_reading clk h i ∧
    500 ≤ sub32 (clk (exit_reading clk h i) % 4294967296) (clk i % 4294967296) ∧
    ∀ k, i < k → k < exit_reading clk h i →
      sub32 (clk k % 4294967296) (clk i % 4294967296) < 500 := by
  refine ⟨(Nat.find_spec (h i)).1, (Nat.find_spec (h i)).2, ?_⟩
  intro k hik hk
  have := Nat.find_min (h i) hk
  simp only [not_and, not_le] at this
  exact this hik

theorem ramp_body_eq (clk : Nat → Nat) (h : clock_advances clk) (w : Room) (d fuel : Nat)
    (hd : d ≤ 100) (hf : exit_reading clk h w.reads ≤ fuel) :
    ramp_body fuel clk d w =
      some { w with g_pwm_duty := d, reads := exit_reading clk h w.reads + 1,
                    trace := w.trace ++ ramp_line d } := by
  obtain ⟨h1, h2, h3⟩ := exit_reading_spec clk h w.reads
  have hd2 : d % 256 = d := by omega
  simp only [ramp_body, systick_get_ms]
  rw [uart_send_uint8_eq _ _ hd]
  rw [busy_wait_exit clk _ (exit_reading clk h w.reads) fuel]
  · simp [room_set_pwm, tim3_ch1_pwm_set_duty_cycle, uart_send_string, ramp_line, hd2]
  · simp [room_set_pwm, tim3_ch1_pwm_set_duty_cycle, uart_send_string]; omega
  · intro k hk hkj
    simp [room_set_pwm, tim3_ch1_pwm_set_duty_cycle, uart_send_string] at hk ⊢
    exact h3 k (by omega) hkj
  · simpa [room_set_pwm, tim3_ch1_pwm_set_duty_cycle, uart_send_string] using h2
  · simp [room_set_pwm, tim3_ch1_pwm_set_duty_cycle, uart_send_string]; omega

theorem reads_after_lt_succ (clk : Nat → Nat) (h : clock_advances clk) (r0 k : Nat) :
    exit_reading clk h (reads_after clk h r0 k) < reads_after clk h r0 (k + 1) := by
  simp [reads_after]

theorem reads_after_mono (clk : Nat → Nat) (h : clock_advances clk) (r0 : Nat) :
    ∀ m k, k ≤ m → reads_after clk h r0 k ≤ reads_after clk h r0 m := by
  intro m
  induction m with
  | zero => intro k hk; simp [Nat.le_zero.mp hk]
  | succ m ih =>
    intro k hk
    rcases Nat.eq_or_lt_of_le hk with heq | hlt
    · rw [heq]
    · have h1 := ih k (by omega)
      have h2 := (exit_reading_spec clk h (reads_after clk h r0 m)).1
      have h3 := reads_after_lt_succ clk h r0 m
      omega

theorem ramp_state_zero (clk : Nat → Nat) (h : clock_advances clk) (w : Room) :
    ramp_state clk h w 0 = w := by
  simp [ramp_state, reads_after]

theorem ramp_state_step (clk : Nat → Nat) (h : clock_advances clk) (w : Room) (k fuel : Nat)
    (hk : k < 11) (hf : reads_after clk h w.reads 11 ≤ fuel) :
    ramp_body fuel clk (10 * k) (ramp_state clk h w k) = some (ramp_state clk h w (k + 1)) := by
  have h1 := reads_after_lt_succ clk h w.reads k
  have h2 := reads_after_mono clk h w.reads 11 (k + 1) (by omega)
  rw [ramp_body_eq clk h _ _ _ (by omega) (by simp only [ramp_state]; omega)]
  simp [ramp_state, reads_after, List.range_succ]

theorem ramp_loop_eq (clk : Nat → Nat) (h : clock_advances clk) (w : Room) (fuel : Nat)
    (hf : reads_after clk h w.reads 11 ≤ fuel) :
    ∀ m k n, k + m = 11 → m < n →
      ramp_loop fuel clk n (10 * k) (ramp_state clk h w k) = some (ramp_state clk h w 11) := by
  intro m
  induction m with
  | zero =>
    intro k n hk hn
    obtain ⟨n, rfl⟩ := Nat.exists_eq_succ_of_ne_zero (Nat.pos_iff_ne_zero.mp hn)
    have : k = 11 := by omega
    subst this
    simp [ramp_loop]
  | succ m ih =>
    intro k n hk hn
    obtain ⟨n, rfl⟩ := Nat.exists_eq_succ_of_ne_zero (Nat.pos_iff_ne_zero.mp (by omega : 0 < n))
    have hk10 : 10 * k ≤ 100 := by omega
    have hnext : (10 * k + 10) % 256 = 10 * (k + 1) := by omega
    simp only [ramp_loop, hk10, if_true, ramp_state_step clk h w k fuel (by omega) hf, hnext]
    exact ih (k + 1) n (by omega) (by omega)

theorem clock_advances_linear : clock_advances (fun i => 500 * i) := by
  intro i
  refine ⟨i + 1, by omega, ?_⟩
  simp only [sub32]
  omega

/-! ## The occupancy timeout -/

/-- Claim C1: when the room is occupied and the 32-bit difference between the
clock reading and `led_on_time` has reached `LED_TIMEOUT_MS`,
`room_control_update` leaves the state `ROOM_IDLE` and its driver calls are
exactly a PWM write of duty 0 followed by the single serial message
`Timeout: Sala vacía`. -/
theorem update_timeout_fires (LED_TIMEOUT_MS : Nat) (clk : Nat → Nat) (w : Room)
    (hocc : w.current_state = ROOM_OCCUPIED)
    (hto : sub32 (systick_get_ms clk w).1 w.led_on_time ≥ LED_TIMEOUT_MS) :
    (room_control_update LED_TIMEOUT_MS clk w).current_state = ROOM_IDLE ∧
    (room_control_update LED_TIMEOUT_MS clk w).trace =
      w.trace ++ [Event.pwm 0, Event.str "Timeout: Sala vacía\r\n"] := by
  simp only [systick_get_ms] at hto
  simp [room_control_update, systick_get_ms, hocc, hto, uart_send_string,
    tim3_ch1_pwm_set_duty_cycle]

/-- Instance of C1: occupied since tick 0, read at tick 3000 with a timeout of
3000 ms. -/
theorem update_timeout_fires_witness :
    ((⟨ROOM_OCCUPIED, 0, 100, 0, []⟩ : Room).current_state = ROOM_OCCUPIED ∧
      sub32 (systick_get_ms (fun _ => 3000) ⟨ROOM_OCCUPIED, 0, 100, 0, []⟩).1
        (⟨ROOM_OCCUPIED, 0, 100, 0, []⟩ : Room).led_on_time ≥ 3000) ∧
    ((room_control_update 3000 (fun _ => 3000) ⟨ROOM_OCCUPIED, 0, 100, 0, []⟩).current_state
      = ROOM_IDLE ∧
    (room_control_update 3000 (fun _ => 3000) ⟨ROOM_OCCUPIED, 0, 100, 0, []⟩).trace =
      (⟨ROOM_OCCUPIED, 0, 100, 0, []⟩ : Room).trace ++
        [Event.pwm 0, Event.str "Timeout: Sala vacía\r\n"]) :=
  ⟨by decide,
   update_timeout_fires 3000 (fun _ => 3000) ⟨ROOM_OCCUPIED, 0, 100, 0, []⟩ rfl (by decide)⟩

/-- Claim C2, evaluated where it fails: after initialisation with an initial
duty of 20, one button press at tick 0 and an update at tick 5000 with a timeout
of 3000 ms, the room is idle and the last duty handed to the PWM driver is 0,
but `g_pwm_duty` still holds 100. -/
theorem update_timeout_leaves_stale_duty :
    (room_control_update 3000 (fun i => 5000 * i)
      (room_control_on_button_press (fun i => 5000 * i)
        (room_control_app_init 20 (boot 20)))).current_state = ROOM_IDLE ∧
    lastPwm (room_control_update 3000 (fun i => 5000 * i)
      (room_control_on_button_press (fun i => 5000 * i)
        (room_control_app_init 20 (boot 20)))).trace = some 0 ∧
    (room_control_update 3000 (fun i => 5000 * i)
      (room_control_on_button_press (fun i => 5000 * i)
        (room_control_app_init 20 (boot 20)))).g_pwm_duty = 100 := by
  decide

/-- Claim C3: when the room is idle, or occupied with a 32-bit elapsed time
below `LED_TIMEOUT_MS`, `room_control_update` leaves the state, the recorded
duty and `led_on_time` as they were and makes no driver call (no PWM write, no
serial output). -/
theorem update_no_effect (LED_TIMEOUT_MS : Nat) (clk : Nat → Nat) (w : Room)
    (h : w.current_state = ROOM_IDLE ∨
      (w.current_state = ROOM_OCCUPIED ∧
        sub32 (systick_get_ms clk w).1 w.led_on_time < LED_TIMEOUT_MS)) :
    (room_control_update LED_TIMEOUT_MS clk w).current_state = w.current_state ∧
    (room_control_update LED_TIMEOUT_MS clk w).g_pwm_duty = w.g_pwm_duty ∧
    (room_control_update LED_TIMEOUT_MS clk w).led_on_time = w.led_on_time ∧
    (room_control_update LED_TIMEOUT_MS clk w).trace = w.trace := by
  rcases h with h | ⟨hocc, hlt⟩
  · simp [room_control_update, h]
  · simp only [systick_get_ms] at hlt
    simp [room_control_update, systick_get_ms, hocc, Nat.not_le.mpr hlt]

/-- Instance of C3: occupied since tick 1000, read at tick 3999 with a timeout
of 3000 ms, that is one millisecond before the timeout. -/
theorem update_no_effect_witness :
    ((⟨ROOM_OCCUPIED, 1000, 100, 0, []⟩ : Room).current_state = ROOM_IDLE ∨
      ((⟨ROOM_OCCUPIED, 1000, 100, 0, []⟩ : Room).current_state = ROOM_OCCUPIED ∧
        sub32 (systick_get_ms (fun _ => 3999) ⟨ROOM_OCCUPIED, 1000, 100, 0, []⟩).1
          (⟨ROOM_OCCUPIED, 1000, 100, 0, []⟩ : Room).led_on_time < 3000)) ∧
    ((room_control_update 3000 (fun _ => 3999) ⟨ROOM_OCCUPIED, 1000, 100, 0, []⟩).current_state
        = (⟨ROOM_OCCUPIED, 1000, 100, 0, []⟩ : Room).current_state ∧
      (room_control_update 3000 (fun _ => 3999) ⟨ROOM_OCCUPIED, 1000, 100, 0, []⟩).g_pwm_duty
        = (⟨ROOM_OCCUPIED, 1000, 100, 0, []⟩ : Room).g_pwm_duty ∧
      (room_control_update 3000 (fun _ => 3999) ⟨ROOM_OCCUPIED, 1000, 100, 0, []⟩).led_on_time
        = (⟨ROOM_OCCUPIED, 1000, 100, 0, []⟩ : Room).led_on_time ∧
      (room_control_update 3000 (fun _ => 3999) ⟨ROOM_OCCUPIED, 1000, 100, 0, []⟩).trace
        = (⟨ROOM_OCCUPIED, 1000, 100, 0, []⟩ : Room).trace) :=
  ⟨by decide,
   update_no_effect 3000 (fun _ => 3999) ⟨ROOM_OCCUPIED, 1000, 100, 0, []⟩
     (Or.inr (by decide))⟩

/-! ## The button -/

/-- Claim C4: after initialisation and `n` consecutive button presses the
state is `ROOM_OCCUPIED` when `n` is odd and `ROOM_IDLE` when `n` is even. -/
theorem button_presses_alternate (PWM_INITIAL_DUTY : Nat) (clk : Nat → Nat) (w : Room)
    (n : Nat) :
    ((room_control_on_button_press clk)^[n]
        (room_control_app_init PWM_INITIAL_DUTY w)).current_state =
      if n % 2 = 1 then ROOM_OCCUPIED else ROOM_IDLE := by
  induction n with
  | zero => simp [init_state]
  | succ n ih =>
    rw [Function.iterate_succ_apply', press_state, ih]
    rcases Nat.mod_two_eq_zero_or_one n with h | h
    · have : (n + 1) % 2 = 1 := by omega
      simp [h, this]
    · have : (n + 1) % 2 = 0 := by omega
      simp [h, this]

/-! ## The serial commands -/

/-- Claim C5: from every room, the commands `O` and `o` leave the state
`ROOM_OCCUPIED`, the recorded duty 100, `led_on_time` equal to the clock reading
taken by the call, and their driver calls are exactly a PWM write of 100
followed by the message `Sala ocupada`. -/
theorem uart_occupy (fuel : Nat) (clk : Nat → Nat) (w : Room) :
    room_control_on_uart_receive fuel clk 'O' w =
      some { current_state := ROOM_OCCUPIED, led_on_time := (systick_get_ms clk w).1,
             g_pwm_duty := 100, reads := w.reads + 1,
             trace := w.trace ++ [Event.pwm 100, Event.str "Sala ocupada\r\n"] } ∧
    room_control_on_uart_receive fuel clk 'o' w =
      some { current_state := ROOM_OCCUPIED, led_on_time := (systick_get_ms clk w).1,
             g_pwm_duty := 100, reads := w.reads + 1,
             trace := w.trace ++ [Event.pwm 100, Event.str "Sala ocupada\r\n"] } := by
  simp [room_control_on_uart_receive, room_set_pwm, tim3_ch1_pwm_set_duty_cycle,
    uart_send_string, systick_get_ms]

/-- Claim C6: from every room, the commands `I` and `i` leave the state
`ROOM_IDLE` and the recorded duty 0, and their driver calls are exactly a PWM
write of 0 followed by the message `Sala vacía`; `led_on_time` is not touched
and the clock is not read. -/
theorem uart_vacate (fuel : Nat) (clk : Nat → Nat) (w : Room) :
    room_control_on_uart_receive fuel clk 'I' w =
      some { current_state := ROOM_IDLE, led_on_time := w.led_on_time, g_pwm_duty := 0,
             reads := w.reads,
             trace := w.trace ++ [Event.pwm 0, Event.str "Sala vacía\r\n"] } ∧
    room_control_on_uart_receive fuel clk 'i' w =
      some { current_state := ROOM_IDLE, led_on_time := w.led_on_time, g_pwm_duty := 0,
             reads := w.reads,
             trace := w.trace ++ [Event.pwm 0, Event.str "Sala vacía\r\n"] } := by
  simp [room_control_on_uart_receive, room_set_pwm, tim3_ch1_pwm_set_duty_cycle,
    uart_send_string]

/-- Claim C7: from every room, each of the commands `H`, `h` (value 100), `L`,
`l` (value 0) and the digits `1` to `5` (value ten times the digit) records its
value `n` as the duty, makes exactly a PWM write of `n` followed by the line
`PWM: n%`, and leaves the occupancy state (and everything else) as it was. -/
theorem uart_intensity (fuel : Nat) (clk : Nat → Nat) (w : Room) (c : Char) (n : Nat)
    (h : (c, n) ∈ [('H', 100), ('h', 100), ('L', 0), ('l', 0), ('1', 10 * 1), ('2', 10 * 2),
      ('3', 10 * 3), ('4', 10 * 4), ('5', 10 * 5)]) :
    room_control_on_uart_receive fuel clk c w =
      some { current_state := w.current_state, led_on_time := w.led_on_time,
             g_pwm_duty := n, reads := w.reads,
             trace := w.trace ++
               [Event.pwm n, Event.str ("PWM: " ++ Nat.repr n ++ "%\r\n")] } := by
  have key : ∀ p ∈ [('H', 100), ('h', 100), ('L', 0), ('l', 0), ('1', 10), ('2', 20),
      ('3', 30), ('4', 40), ('5', 50)],
      room_control_on_uart_receive fuel clk p.1 w =
        some { current_state := w.current_state, led_on_time := w.led_on_time,
               g_pwm_duty := p.2, reads := w.reads,
               trace := w.trace ++
                 [Event.pwm p.2, Event.str ("PWM: " ++ Nat.repr p.2 ++ "%\r\n")] } := by
    simp [room_control_on_uart_receive, room_set_pwm, tim3_ch1_pwm_set_duty_cycle,
      uart_send_string]
    decide
  exact key (c, n) h

/-- Instance of C7: the digit `3` in an occupied room. -/
theorem uart_intensity_witness :
    (('3', 30) ∈ [('H', 100), ('h', 100), ('L', 0), ('l', 0), ('1', 10 * 1), ('2', 10 * 2),
      ('3', 10 * 3), ('4', 10 * 4), ('5', 10 * 5)]) ∧
    room_control_on_uart_receive 0 (fun i => i) '3' ⟨ROOM_OCCUPIED, 7, 100, 1, []⟩ =
      some { current_state := ROOM_OCCUPIED, led_on_time := 7, g_pwm_duty := 30, reads := 1,
             trace := [] ++ [Event.pwm 30, Event.str ("PWM: " ++ Nat.repr 30 ++ "%\r\n")] } :=
  ⟨by decide,
   uart_intensity 0 (fun i => i) ⟨ROOM_OCCUPIED, 7, 100, 1, []⟩ '3' 30 (by decide)⟩

/-- Claim C8: for every character outside the command set, the call leaves the
occupancy state, the recorded duty and `led_on_time` as they were, makes no PWM
write, and its driver calls are exactly the text `Comando desconocido: `, the
character itself and the line terminator. -/
theorem uart_unknown (fuel : Nat) (clk : Nat → Nat) (w : Room) (c : Char)
    (h : c ∉ ['h', 'H', 'l', 'L', 'o', 'O', 'i', 'I', 's', 'S', 'g', 'G', '?', '1', '2', '3',
      '4', '5']) :
    room_control_on_uart_receive fuel clk c w =
      some { current_state := w.current_state, led_on_time := w.led_on_time,
             g_pwm_duty := w.g_pwm_duty, reads := w.reads,
             trace := w.trace ++
               [Event.str "Comando desconocido: ", Event.chr c, Event.str "\r\n"] } := by
  simp only [List.mem_cons, List.mem_singleton, List.not_mem_nil, or_false, not_or] at h
  simp [room_control_on_uart_receive, uart_send_string, uart_send, h]

/-- Instance of C8: the character `x` in an occupied room. -/
theorem uart_unknown_witness :
    ('x' ∉ ['h', 'H', 'l', 'L', 'o', 'O', 'i', 'I', 's', 'S', 'g', 'G', '?', '1', '2', '3',
      '4', '5']) ∧
    room_control_on_uart_receive 0 (fun i => i) 'x' ⟨ROOM_OCCUPIED, 7, 100, 1, []⟩ =
      some { current_state := ROOM_OCCUPIED, led_on_time := 7, g_pwm_duty := 100, reads := 1,
             trace := [] ++
               [Event.str "Comando desconocido: ", Event.chr 'x', Event.str "\r\n"] } :=
  ⟨by decide,
   uart_unknown 0 (fun i => i) ⟨ROOM_OCCUPIED, 7, 100, 1, []⟩ 'x' (by decide)⟩

/-! ## The ramp -/

/-- Claim C9: when the clock keeps advancing, the ramp command (`G` or `g`)
returns for every large enough bound on its loops.  It runs through rooms
`ws 0 = w`, ..., `ws 11`, step `k` being the loop body for the duty `10 * k`:
that step records `10 * k` as the duty and appends exactly the PWM write of
`10 * k` followed by the line `PWM: 10k%`, leaving the occupancy state and
`led_on_time` alone.  The command returns `ws 11`, whose recorded duty is 100;
the serial output of the whole ramp is the eleven lines for 0, 10, ..., 100 in
that order, and the PWM writes are 0, 10, ..., 100. -/
theorem ramp_emits_eleven_lines (clk : Nat → Nat) (w : Room) (h : clock_advances clk) :
    ∃ (f0 : Nat) (ws : Nat → Room), ws 0 = w ∧
      (∀ k, k < 11 → ∀ fuel, f0 ≤ fuel →
        ramp_body fuel clk (10 * k) (ws k) = some (ws (k + 1))) ∧
      (∀ k, k < 11 →
        (ws (k + 1)).g_pwm_duty = 10 * k ∧
        (ws (k + 1)).trace = (ws k).trace ++ ramp_line (10 * k) ∧
        (ws (k + 1)).current_state = w.current_state ∧
        (ws (k + 1)).led_on_time = w.led_on_time) ∧
      (∀ fuel, f0 ≤ fuel →
        room_control_on_uart_receive fuel clk 'G' w = some (ws 11) ∧
        room_control_on_uart_receive fuel clk 'g' w = some (ws 11)) ∧
      (ws 11).g_pwm_duty = 100 ∧
      (ws 11).current_state = w.current_state ∧
      (ws 11).trace = w.trace ++ (List.range 11).flatMap (fun k => ramp_line (10 * k)) ∧
      serial ((List.range 11).flatMap (fun k => ramp_line (10 * k))) =
        ("PWM: 0%\r\nPWM: 10%\r\nPWM: 20%\r\nPWM: 30%\r\nPWM: 40%\r\nPWM: 50%\r\n" ++
         "PWM: 60%\r\nPWM: 70%\r\nPWM: 80%\r\nPWM: 90%\r\nPWM: 100%\r\n").toList ∧
      pwmWrites ((List.range 11).flatMap (fun k => ramp_line (10 * k))) =
        [0, 10, 20, 30, 40, 50, 60, 70, 80, 90, 100] := by
  refine ⟨reads_after clk h w.reads 11 + 12, ramp_state clk h w, ramp_state_zero clk h w,
    ?_, ?_, ?_, ?_, ?_, ?_, by decide, by decide⟩
  · intro k hk fuel hf
    exact ramp_state_step clk h w k fuel hk (by omega)
  · intro k hk
    simp [ramp_state, List.range_succ]
  · intro fuel hf
    have := ramp_loop_eq clk h w fuel (by omega) 11 0 fuel (by omega) (by omega)
    rw [ramp_state_zero] at this
    simp [room_control_on_uart_receive, this]
  · simp [ramp_state]
  · simp [ramp_state]
  · simp [ramp_state]

/-- Instance of C9: a clock that gains 500 ms between readings, from the
power-on variables.  The ramp returns for every large enough bound, with duty
100, the room still idle and the eleven PWM writes; with the bound 12 it
returns after 22 readings. -/
theorem ramp_emits_eleven_lines_witness :
    clock_advances (fun i => 500 * i) ∧
    (∃ f0 : Nat, ∀ fuel, f0 ≤ fuel → ∃ w1 : Room,
      room_control_on_uart_receive fuel (fun i => 500 * i) 'G' (boot 20) = some w1 ∧
      w1.g_pwm_duty = 100 ∧ w1.current_state = ROOM_IDLE ∧
      pwmWrites w1.trace = [0, 10, 20, 30, 40, 50, 60, 70, 80, 90, 100]) ∧
    room_control_on_uart_receive 12 (fun i => 500 * i) 'G' (boot 20) =
      some { current_state := ROOM_IDLE, led_on_time := 0, g_pwm_duty := 100, reads := 22,
             trace := (List.range 11).flatMap (fun k => ramp_line (10 * k)) } := by
  refine ⟨clock_advances_linear, ?_, by decide⟩
  obtain ⟨f0, ws, _, _, _, hrun, hduty, hstate, htrace, _, hpwm⟩ :=
    ramp_emits_eleven_lines (fun i => 500 * i) (boot 20) clock_advances_linear
  refine ⟨f0, fun fuel hf => ⟨ws 11, (hrun fuel hf).1, hduty, hstate, ?_⟩⟩
  rw [htrace]
  simpa [boot] using hpwm

/-! ## Number formatting -/

/-- Claim C10: for `v` from 0 to 100, `uart_send_uint8 v` sends exactly the
characters of the decimal representation of `v`, one `uart_send` per character,
and nothing else; that representation has 1 to 3 characters, all of them
digits, and does not start with `0` unless `v` is 0. -/
theorem uart_send_uint8_decimal (v : Nat) (w : Room) (hv : v ≤ 100) :
    uart_send_uint8 v w =
      { current_state := w.current_state, led_on_time := w.led_on_time,
        g_pwm_duty := w.g_pwm_duty, reads := w.reads,
        trace := w.trace ++ (Nat.repr v).toList.map Event.chr } ∧
    1 ≤ (Nat.repr v).length ∧ (Nat.repr v).length ≤ 3 ∧
    (∀ c ∈ (Nat.repr v).toList, c.isDigit = true) ∧
    (v ≠ 0 → (Nat.repr v).toList.head? ≠ some '0') := by
  refine ⟨uart_send_uint8_eq v w hv, ?_⟩
  interval_cases v <;> decide

/-- Instance of C10: the value 40 is sent as the two characters `4`, `0`. -/
theorem uart_send_uint8_decimal_witness :
    40 ≤ 100 ∧
    uart_send_uint8 40 ⟨ROOM_IDLE, 0, 20, 0, []⟩ =
      ⟨ROOM_IDLE, 0, 20, 0, [Event.chr '4', Event.chr '0']⟩ ∧
    serial (uart_send_uint8 0 ⟨ROOM_IDLE, 0, 20, 0, []⟩).trace = "0".toList ∧
    serial (uart_send_uint8 7 ⟨ROOM_IDLE, 0, 20, 0, []⟩).trace = "7".toList ∧
    serial (uart_send_uint8 100 ⟨ROOM_IDLE, 0, 20, 0, []⟩).trace = "100".toList :=
  ⟨by decide,
   (uart_send_uint8_decimal 40 ⟨ROOM_IDLE, 0, 20, 0, []⟩ (by decide)).1.trans (by decide),
   by decide, by decide, by decide⟩

/-! ## Frame lemmas for the entry points -/

theorem pwmWrites_append (a b : List Event) :
    pwmWrites (a ++ b) = pwmWrites a ++ pwmWrites b := by
  induction a with
  | nil => simp [pwmWrites]
  | cons e es ih => cases e <;> simp [pwmWrites, ih]

theorem pwmWrites_map_chr (l : List Char) : pwmWrites (l.map Event.chr) = [] := by
  induction l with
  | nil => simp [pwmWrites]
  | cons c cs ih => simp [pwmWrites, ih]

theorem duty_in_range_set_pwm (d : Nat) (w : Room) (hd : d ≤ 100) (h : duty_in_range w) :
    duty_in_range (room_set_pwm d w) := by
  have hd2 : d % 256 = d := by omega
  refine ⟨by simp [room_set_pwm, tim3_ch1_pwm_set_duty_cycle, hd2, hd], ?_⟩
  intro x hx
  simp only [room_set_pwm, tim3_ch1_pwm_set_duty_cycle, pwmWrites_append, pwmWrites,
    List.mem_append, List.mem_singleton, hd2] at hx
  rcases hx with hx | hx
  · exact h.2 x hx
  · omega

theorem duty_in_range_congr (w w1 : Room) (hg : w1.g_pwm_duty = w.g_pwm_duty)
    (ht : pwmWrites w1.trace = pwmWrites w.trace) (h : duty_in_range w) :
    duty_in_range w1 := by
  unfold duty_in_range
  rw [hg, ht]
  exact h

theorem uart_send_uint8_frame (v : Nat) (w : Room) :
    (uart_send_uint8 v w).current_state = w.current_state ∧
    (uart_send_uint8 v w).led_on_time = w.led_on_time ∧
    (uart_send_uint8 v w).g_pwm_duty = w.g_pwm_duty ∧
    (uart_send_uint8 v w).reads = w.reads ∧
    pwmWrites (uart_send_uint8 v w).trace = pwmWrites w.trace := by
  unfold uart_send_uint8
  split_ifs <;> simp [uart_send, pwmWrites_append, pwmWrites]

theorem busy_wait_inv (clk : Nat → Nat) (start : Nat) :
    ∀ (fuel : Nat) (w w1 : Room), busy_wait clk start fuel w = some w1 →
      ∃ j, w.reads ≤ j ∧ 500 ≤ sub32 (clk j % 4294967296) start ∧
        (∀ i, w.reads ≤ i → i < j → sub32 (clk i % 4294967296) start < 500) ∧
        w1 = { w with reads := j + 1 } := by
  intro fuel
  induction fuel with
  | zero => intro w w1 h; simp [busy_wait] at h
  | succ fuel ih =>
    intro w w1 h
    by_cases hlt : sub32 (clk w.reads % 4294967296) start < 500
    · simp only [busy_wait, systick_get_ms, hlt, if_true] at h
      obtain ⟨j, hj1, hj2, hj3, hj4⟩ := ih _ _ h
      simp only at hj1 hj3 hj4
      refine ⟨j, by omega, hj2, ?_, hj4⟩
      intro i hi hij
      rcases Nat.eq_or_lt_of_le hi with heq | hgt
      · rw [← heq]; exact hlt
      · exact hj3 i hgt hij
    · simp only [busy_wait, systick_get_ms, hlt, if_false, Option.some.injEq] at h
      exact ⟨w.reads, Nat.le_refl _, by omega, fun i hi hij => by omega, h.symm⟩

theorem ramp_body_inv (fuel : Nat) (clk : Nat → Nat) (d : Nat) (w w1 : Room)
    (h : ramp_body fuel clk d w = some w1) :
    ∃ j, w.reads < j ∧ 500 ≤ sub32 (clk j % 4294967296) (clk w.reads % 4294967296) ∧
      (∀ i, w.reads < i → i < j →
        sub32 (clk i % 4294967296) (clk w.reads % 4294967296) < 500) ∧
      w1 = { uart_send_string "%\r\n"
              (uart_send_uint8 d (uart_send_string "PWM: " (room_set_pwm d w))) with
             reads := j + 1 } := by
  simp only [ramp_body, systick_get_ms] at h
  obtain ⟨j, hj1, hj2, hj3, hj4⟩ := busy_wait_inv clk _ fuel _ _ h
  have hr : (uart_send_string "%\r\n"
      (uart_send_uint8 d (uart_send_string "PWM: " (room_set_pwm d w)))).reads = w.reads := by
    simp [uart_send_string, (uart_send_uint8_frame _ _).2.2.2.1, room_set_pwm,
      tim3_ch1_pwm_set_duty_cycle]
  simp only [hr] at hj1 hj2 hj3 hj4
  exact ⟨j, by omega, hj2, fun i hi hij => hj3 i (by omega) hij, hj4⟩

theorem ramp_body_frame (fuel : Nat) (clk : Nat → Nat) (d : Nat) (w w1 : Room)
    (hd : d ≤ 100) (h : ramp_body fuel clk d w = some w1) :
    w1.current_state = w.current_state ∧ w1.led_on_time = w.led_on_time ∧
    (duty_in_range w → duty_in_range w1) := by
  obtain ⟨j, -, -, -, rfl⟩ := ramp_body_inv fuel clk d w w1 h
  refine ⟨?_, ?_, ?_⟩
  · simp [uart_send_string, (uart_send_uint8_frame _ _).1, room_set_pwm,
      tim3_ch1_pwm_set_duty_cycle]
  · simp [uart_send_string, (uart_send_uint8_frame _ _).2.1, room_set_pwm,
      tim3_ch1_pwm_set_duty_cycle]
  · intro hin
    refine duty_in_range_congr (room_set_pwm d w) _ ?_ ?_ (duty_in_range_set_pwm d w hd hin)
    · simp [uart_send_string, (uart_send_uint8_frame _ _).2.2.1]
    · simp [uart_send_string, (uart_send_uint8_frame _ _).2.2.2.2, pwmWrites_append, pwmWrites]

theorem ramp_loop_frame (fuel : Nat) (clk : Nat → Nat) :
    ∀ (n duty : Nat) (w w1 : Room), ramp_loop fuel clk n duty w = some w1 →
      w1.current_state = w.current_state ∧ w1.led_on_time = w.led_on_time ∧
      (duty_in_range w → duty_in_range w1) := by
  intro n
  induction n with
  | zero => intro duty w w1 h; simp [ramp_loop] at h
  | succ n ih =>
    intro duty w w1 h
    by_cases hd : duty ≤ 100
    · simp only [ramp_loop, hd, if_true] at h
      cases hb : ramp_body fuel clk duty w with
      | none => simp [hb] at h
      | some w2 =>
        simp only [hb] at h
        obtain ⟨a1, a2, a3⟩ := ramp_body_frame fuel clk duty w w2 hd hb
        obtain ⟨b1, b2, b3⟩ := ih _ _ _ h
        exact ⟨b1.trans a1, b2.trans a2, fun hin => b3 (a3 hin)⟩
    · simp only [ramp_loop, hd, if_false, Option.some.injEq] at h
      subst h
      exact ⟨rfl, rfl, id⟩


theorem set_pwm_line_frame (msg : String) (d : Nat) (w : Room) (hd : d ≤ 100) :
    (duty_in_range w → duty_in_range (uart_send_string msg (room_set_pwm d w))) ∧
    (uart_send_string msg (room_set_pwm d w)).current_state = w.current_state ∧
    (uart_send_string msg (room_set_pwm d w)).led_on_time = w.led_on_time := by
  refine ⟨fun hin => ?_, by simp [uart_send_string, room_set_pwm, tim3_ch1_pwm_set_duty_cycle],
    by simp [uart_send_string, room_set_pwm, tim3_ch1_pwm_set_duty_cycle]⟩
  exact duty_in_range_congr (room_set_pwm d w) _ (by simp [uart_send_string])
    (by simp [uart_send_string, pwmWrites_append, pwmWrites])
    (duty_in_range_set_pwm d w hd hin)

theorem send_status_frame (w : Room) :
    (duty_in_range w → duty_in_range (room_control_send_status w)) ∧
    (room_control_send_status w).current_state = w.current_state ∧
    (room_control_send_status w).led_on_time = w.led_on_time := by
  have key : (room_control_send_status w).current_state = w.current_state ∧
      (room_control_send_status w).led_on_time = w.led_on_time ∧
      (room_control_send_status w).g_pwm_duty = w.g_pwm_duty ∧
      pwmWrites (room_control_send_status w).trace = pwmWrites w.trace := by
    unfold room_control_send_status
    by_cases hs : w.current_state = ROOM_IDLE <;>
      simp [uart_send_string, pwmWrites_append, pwmWrites, hs]
  exact ⟨duty_in_range_congr w _ key.2.2.1 key.2.2.2, key.1, key.2.1⟩

/-- What a returned `room_control_on_uart_receive` call can have done to the
occupancy state, to `led_on_time` and to the duty range. -/
theorem uart_receive_frame (fuel : Nat) (clk : Nat → Nat) (ch : Char) (w w1 : Room)
    (h : room_control_on_uart_receive fuel clk ch w = some w1) :
    (duty_in_range w → duty_in_range w1) ∧
    (((ch = 'O' ∨ ch = 'o') ∧ w1.current_state = ROOM_OCCUPIED ∧
        w1.led_on_time = (systick_get_ms clk w).1) ∨
     ((ch = 'I' ∨ ch = 'i') ∧ w1.current_state = ROOM_IDLE ∧
        w1.led_on_time = w.led_on_time) ∨
     ((¬ (ch = 'O' ∨ ch = 'o') ∧ ¬ (ch = 'I' ∨ ch = 'i')) ∧
        w1.current_state = w.current_state ∧ w1.led_on_time = w.led_on_time)) := by
  unfold room_control_on_uart_receive at h
  by_cases c1 : ch = 'h' ∨ ch = 'H'
  · rw [if_pos c1] at h
    have e := Option.some.inj h
    subst e
    have f := set_pwm_line_frame "PWM: 100%\r\n" 100 w (by omega)
    have n1 : ¬ (ch = 'O' ∨ ch = 'o') ∧ ¬ (ch = 'I' ∨ ch = 'i') := by
      rcases c1 with rfl | rfl <;> decide
    exact ⟨f.1, Or.inr (Or.inr ⟨n1, f.2⟩)⟩
  rw [if_neg c1] at h
  by_cases c2 : ch = 'l' ∨ ch = 'L'
  · rw [if_pos c2] at h
    have e := Option.some.inj h
    subst e
    have f := set_pwm_line_frame "PWM: 0%\r\n" 0 w (by omega)
    have n1 : ¬ (ch = 'O' ∨ ch = 'o') ∧ ¬ (ch = 'I' ∨ ch = 'i') := by
      rcases c2 with rfl | rfl <;> decide
    exact ⟨f.1, Or.inr (Or.inr ⟨n1, f.2⟩)⟩
  rw [if_neg c2] at h
  by_cases c3 : ch = 'O' ∨ ch = 'o'
  · rw [if_pos c3] at h
    have e := Option.some.inj h
    subst e
    refine ⟨fun hin => ?_, Or.inl ⟨c3, ?_, ?_⟩⟩
    · exact duty_in_range_congr
        (room_set_pwm 100 { w with current_state := ROOM_OCCUPIED }) _
        (by simp [uart_send_string, systick_get_ms])
        (by simp [uart_send_string, systick_get_ms, pwmWrites_append, pwmWrites])
        (duty_in_range_set_pwm 100 _ (by omega) hin)
    · simp [uart_send_string, systick_get_ms, room_set_pwm, tim3_ch1_pwm_set_duty_cycle]
    · simp [uart_send_string, systick_get_ms, room_set_pwm, tim3_ch1_pwm_set_duty_cycle]
  rw [if_neg c3] at h
  by_cases c4 : ch = 'I' ∨ ch = 'i'
  · rw [if_pos c4] at h
    have e := Option.some.inj h
    subst e
    have f := set_pwm_line_frame "Sala vacía\r\n" 0 { w with current_state := ROOM_IDLE }
      (by omega)
    refine ⟨f.1, Or.inr (Or.inl ⟨c4, ?_, ?_⟩)⟩
    · simp [uart_send_string, room_set_pwm, tim3_ch1_pwm_set_duty_cycle]
    · simp [uart_send_string, room_set_pwm, tim3_ch1_pwm_set_duty_cycle]
  rw [if_neg c4] at h
  by_cases c5 : ch = 's' ∨ ch = 'S'
  · rw [if_pos c5] at h
    have e := Option.some.inj h
    subst e
    have f := send_status_frame w
    exact ⟨f.1, Or.inr (Or.inr ⟨⟨c3, c4⟩, f.2⟩)⟩
  rw [if_neg c5] at h
  by_cases c6 : ch = 'g' ∨ ch = 'G'
  · rw [if_pos c6] at h
    have f := ramp_loop_frame fuel clk _ _ _ _ h
    exact ⟨f.2.2, Or.inr (Or.inr ⟨⟨c3, c4⟩, f.1, f.2.1⟩)⟩
  rw [if_neg c6] at h
  by_cases c7 : ch = '?'
  · rw [if_pos c7] at h
    have e := Option.some.inj h
    subst e
    exact ⟨duty_in_range_congr w _ (by simp [uart_send_string])
        (by simp [uart_send_string, pwmWrites_append, pwmWrites]),
      Or.inr (Or.inr ⟨⟨c3, c4⟩, by simp [uart_send_string], by simp [uart_send_string]⟩)⟩
  rw [if_neg c7] at h
  by_cases d1 : ch = '1'
  · rw [if_pos d1] at h
    have e := Option.some.inj h
    subst e
    have f := set_pwm_line_frame "PWM: 10%\r\n" 10 w (by omega)
    exact ⟨f.1, Or.inr (Or.inr ⟨⟨c3, c4⟩, f.2⟩)⟩
  rw [if_neg d1] at h
  by_cases d2 : ch = '2'
  · rw [if_pos d2] at h
    have e := Option.some.inj h
    subst e
    have f := set_pwm_line_frame "PWM: 20%\r\n" 20 w (by omega)
    exact ⟨f.1, Or.inr (Or.inr ⟨⟨c3, c4⟩, f.2⟩)⟩
  rw [if_neg d2] at h
  by_cases d3 : ch = '3'
  · rw [if_pos d3] at h
    have e := Option.some.inj h
    subst e
    have f := set_pwm_line_frame "PWM: 30%\r\n" 30 w (by omega)
    exact ⟨f.1, Or.inr (Or.inr ⟨⟨c3, c4⟩, f.2⟩)⟩
  rw [if_neg d3] at h
  by_cases d4 : ch = '4'
  · rw [if_pos d4] at h
    have e := Option.some.inj h
    subst e
    have f := set_pwm_line_frame "PWM: 40%\r\n" 40 w (by omega)
    exact ⟨f.1, Or.inr (Or.inr ⟨⟨c3, c4⟩, f.2⟩)⟩
  rw [if_neg d4] at h
  by_cases d5 : ch = '5'
  · rw [if_pos d5] at h
    have e := Option.some.inj h
    subst e
    have f := set_pwm_line_frame "PWM: 50%\r\n" 50 w (by omega)
    exact ⟨f.1, Or.inr (Or.inr ⟨⟨c3, c4⟩, f.2⟩)⟩
  rw [if_neg d5] at h
  have e := Option.some.inj h
  subst e
  exact ⟨duty_in_range_congr w _ (by simp [uart_send_string, uart_send])
      (by simp [uart_send_string, uart_send, pwmWrites_append, pwmWrites]),
    Or.inr (Or.inr ⟨⟨c3, c4⟩, by simp [uart_send_string, uart_send],
      by simp [uart_send_string, uart_send]⟩)⟩


theorem button_press_frame (clk : Nat → Nat) (w : Room) :
    (duty_in_range w → duty_in_range (room_control_on_button_press clk w)) ∧
    (w.current_state = ROOM_IDLE →
      (room_control_on_button_press clk w).led_on_time = (systick_get_ms clk w).1) ∧
    (w.current_state ≠ ROOM_IDLE →
      (room_control_on_button_press clk w).led_on_time = w.led_on_time) := by
  unfold room_control_on_button_press
  by_cases hs : w.current_state = ROOM_IDLE
  · rw [if_pos hs]
    refine ⟨fun hin => ?_, fun _ => ?_, fun hne => absurd hs hne⟩
    · exact duty_in_range_congr
        (room_set_pwm 100 { w with current_state := ROOM_OCCUPIED }) _
        (by simp [uart_send_string, systick_get_ms])
        (by simp [uart_send_string, systick_get_ms, pwmWrites_append, pwmWrites])
        (duty_in_range_set_pwm 100 _ (by omega) hin)
    · simp [uart_send_string, systick_get_ms, room_set_pwm, tim3_ch1_pwm_set_duty_cycle]
  · rw [if_neg hs]
    have f := set_pwm_line_frame "Sala vacía\r\n" 0 { w with current_state := ROOM_IDLE }
      (by omega)
    exact ⟨f.1, fun h => absurd h hs, fun _ => f.2.2⟩

theorem update_frame (T : Nat) (clk : Nat → Nat) (w : Room) :
    (duty_in_range w → duty_in_range (room_control_update T clk w)) ∧
    (room_control_update T clk w).led_on_time = w.led_on_time ∧
    ((room_control_update T clk w).current_state ≠ w.current_state →
      w.current_state = ROOM_OCCUPIED ∧ T ≤ sub32 (systick_get_ms clk w).1 w.led_on_time) := by
  unfold room_control_update
  by_cases hs : w.current_state = ROOM_OCCUPIED
  · by_cases ht : T ≤ sub32 (clk w.reads % 4294967296) w.led_on_time
    · refine ⟨fun hin => ⟨?_, ?_⟩, ?_, ?_⟩
      · simpa [hs, ht, systick_get_ms, uart_send_string, tim3_ch1_pwm_set_duty_cycle]
          using hin.1
      · intro x hx
        simp only [hs, ht, systick_get_ms, uart_send_string, tim3_ch1_pwm_set_duty_cycle,
          pwmWrites_append, pwmWrites, List.mem_append, List.mem_singleton, if_true,
          ge_iff_le, List.append_nil, List.not_mem_nil, or_false] at hx
        rcases hx with hx | hx
        · exact hin.2 x hx
        · omega
      · simp [hs, ht, systick_get_ms, uart_send_string, tim3_ch1_pwm_set_duty_cycle]
      · intro _
        exact ⟨hs, by simpa [systick_get_ms] using ht⟩
    · refine ⟨fun hin => ?_, ?_, ?_⟩
      · exact duty_in_range_congr w _ (by simp [hs, ht, systick_get_ms])
          (by simp [hs, ht, systick_get_ms]) hin
      · simp [hs, ht, systick_get_ms]
      · simp [hs, ht, systick_get_ms]
  · simp [hs]

theorem step_preserves_range (fuel T : Nat) (clk : Nat → Nat) (c : Call) (w w1 : Room)
    (h : step fuel T clk c w = some w1) (hin : duty_in_range w) : duty_in_range w1 := by
  cases c with
  | button =>
    have e : room_control_on_button_press clk w = w1 := Option.some.inj h
    subst e
    exact (button_press_frame clk w).1 hin
  | uart ch => exact (uart_receive_frame fuel clk ch w w1 h).1 hin
  | update =>
    have e : room_control_update T clk w = w1 := Option.some.inj h
    subst e
    exact (update_frame T clk w).1 hin
  | status =>
    have e : room_control_send_status w = w1 := Option.some.inj h
    subst e
    exact (send_status_frame w).1 hin

theorem init_in_range (P : Nat) (hP : P ≤ 100) :
    duty_in_range (room_control_app_init P (boot P)) := by
  have h : P % 256 = P := by omega
  simp [duty_in_range, room_control_app_init, room_control_send_status, uart_send_string,
    room_set_pwm, tim3_ch1_pwm_set_duty_cycle, boot, pwmWrites, h, hP]

/-! ## The observed ramp -/

theorem logged_send_uint8_room (v : Nat) (x : Run) :
    (logged_send_uint8 v x).room = uart_send_uint8 v x.room := by
  unfold logged_send_uint8 uart_send_uint8
  split_ifs <;> simp [logged_send]

theorem logged_busy_wait_room (clk : Nat → Nat) (start : Nat) :
    ∀ (fuel : Nat) (x : Run),
      (logged_busy_wait clk start fuel x).map Run.room = busy_wait clk start fuel x.room := by
  intro fuel
  induction fuel with
  | zero => intro x; simp [logged_busy_wait, busy_wait]
  | succ fuel ih =>
    intro x
    by_cases hlt : sub32 (clk x.room.reads % 4294967296) start < 500
    · simp only [logged_busy_wait, busy_wait, logged_systick, systick_get_ms, hlt, if_true]
      exact ih _
    · simp [logged_busy_wait, busy_wait, logged_systick, systick_get_ms, hlt]

theorem logged_ramp_body_room (fuel : Nat) (clk : Nat → Nat) (d : Nat) (x : Run) :
    (logged_ramp_body fuel clk d x).map Run.room = ramp_body fuel clk d x.room := by
  simp only [logged_ramp_body, ramp_body, logged_systick]
  rw [logged_busy_wait_room]
  simp [logged_send_string, logged_send_uint8_room, logged_set_pwm]

theorem logged_ramp_loop_room (fuel : Nat) (clk : Nat → Nat) :
    ∀ (n d : Nat) (x : Run),
      (logged_ramp_loop fuel clk n d x).map Run.room = ramp_loop fuel clk n d x.room := by
  intro n
  induction n with
  | zero => intro d x; simp [logged_ramp_loop, ramp_loop]
  | succ n ih =>
    intro d x
    by_cases hd : d ≤ 100
    · simp only [logged_ramp_loop, ramp_loop, hd, if_true]
      have hb := logged_ramp_body_room fuel clk d x
      cases hx : logged_ramp_body fuel clk d x with
      | none =>
        rw [hx] at hb
        simp only [Option.map_none'] at hb
        simp [← hb]
      | some x1 =>
        rw [hx] at hb
        simp only [Option.map_some'] at hb
        simp only [← hb]
        exact ih _ _
    · simp [logged_ramp_loop, ramp_loop, hd]


theorem wait_ticks_cons (clk : Nat → Nat) (s e : Nat) (h : s ≤ e) :
    wait_ticks clk s e = Obs.tick (clk s % 4294967296) :: wait_ticks clk (s + 1) e := by
  have h1 : e + 1 - s = (e + 1 - (s + 1)) + 1 := by omega
  simp only [wait_ticks]
  rw [h1, List.range'_succ]
  simp

theorem logged_send_uint8_eq (v : Nat) (x : Run) (hv : v ≤ 100) :
    logged_send_uint8 v x =
      { room := uart_send_uint8 v x.room,
        log := x.log ++ (Nat.repr v).toList.map (fun c => Obs.call (Event.chr c)) } := by
  interval_cases v <;> simp [logged_send_uint8, uart_send_uint8, logged_send] <;> decide

theorem logged_busy_wait_exit (clk : Nat → Nat) (start j : Nat) :
    ∀ (fuel : Nat) (x : Run), x.room.reads ≤ j →
      (∀ k, x.room.reads ≤ k → k < j → sub32 (clk k % 4294967296) start < 500) →
      500 ≤ sub32 (clk j % 4294967296) start → j - x.room.reads < fuel →
      logged_busy_wait clk start fuel x =
        some { room := { x.room with reads := j + 1 },
               log := x.log ++ wait_ticks clk x.room.reads j } := by
  intro fuel
  induction fuel with
  | zero => intro x _ _ _ hf; omega
  | succ fuel ih =>
    intro x hle hbelow hj hf
    rw [wait_ticks_cons clk _ _ hle]
    rcases Nat.eq_or_lt_of_le hle with heq | hlt
    · have hj2 : ¬ sub32 (clk j % 4294967296) start < 500 := by omega
      have hw : wait_ticks clk (j + 1) j = [] := by simp [wait_ticks]
      simp [logged_busy_wait, logged_systick, systick_get_ms, hj2, heq, hw]
    · have hlow := hbelow x.room.reads (Nat.le_refl _) hlt
      have := ih { room := { x.room with reads := x.room.reads + 1 },
                   log := x.log ++ [Obs.tick (clk x.room.reads % 4294967296)] }
        (by simpa using hlt)
        (fun k hk hkj => hbelow k (by simp at hk; omega) hkj) hj (by simp; omega)
      simpa [logged_busy_wait, logged_systick, systick_get_ms, hlow] using this

theorem logged_ramp_body_eq (clk : Nat → Nat) (h : clock_advances clk) (x : Run)
    (d fuel : Nat) (hd : d ≤ 100) (hf : exit_reading clk h x.room.reads ≤ fuel) :
    logged_ramp_body fuel clk d x =
      some { room := { x.room with g_pwm_duty := d,
                                   reads := exit_reading clk h x.room.reads + 1,
                                   trace := x.room.trace ++ ramp_line d },
             log := x.log ++ ((ramp_line d).map Obs.call ++
               wait_ticks clk x.room.reads (exit_reading clk h x.room.reads)) } := by
  obtain ⟨h1, h2, h3⟩ := exit_reading_spec clk h x.room.reads
  have hd2 : d % 256 = d := by omega
  simp only [logged_ramp_body, logged_systick, systick_get_ms]
  rw [logged_send_uint8_eq _ _ hd, uart_send_uint8_eq _ _ hd]
  rw [logged_busy_wait_exit clk _ (exit_reading clk h x.room.reads) fuel]
  · rw [wait_ticks_cons clk x.room.reads _ (by omega)]
    simp [logged_send_string, logged_set_pwm, room_set_pwm, tim3_ch1_pwm_set_duty_cycle,
      uart_send_string, ramp_line, hd2]
  · simp [logged_send_string, logged_set_pwm, room_set_pwm, tim3_ch1_pwm_set_duty_cycle,
      uart_send_string]
    omega
  · intro k hk hkj
    simp [logged_send_string, logged_set_pwm, room_set_pwm, tim3_ch1_pwm_set_duty_cycle,
      uart_send_string] at hk ⊢
    exact h3 k (by omega) hkj
  · simpa [logged_send_string, logged_set_pwm, room_set_pwm, tim3_ch1_pwm_set_duty_cycle,
      uart_send_string] using h2
  · simp [logged_send_string, logged_set_pwm, room_set_pwm, tim3_ch1_pwm_set_duty_cycle,
      uart_send_string]
    omega

theorem logged_ramp_state_zero (clk : Nat → Nat) (h : clock_advances clk) (x : Run) :
    logged_ramp_state clk h x 0 = x := by
  simp [logged_ramp_state, ramp_state_zero]

theorem logged_ramp_state_step (clk : Nat → Nat) (h : clock_advances clk) (x : Run)
    (k fuel : Nat) (hk : k < 11) (hf : reads_after clk h x.room.reads 11 ≤ fuel) :
    logged_ramp_body fuel clk (10 * k) (logged_ramp_state clk h x k) =
      some (logged_ramp_state clk h x (k + 1)) := by
  have h1 := reads_after_lt_succ clk h x.room.reads k
  have h2 := reads_after_mono clk h x.room.reads 11 (k + 1) (by omega)
  rw [logged_ramp_body_eq clk h _ _ _ (by omega)
    (by simp only [logged_ramp_state, ramp_state]; omega)]
  simp [logged_ramp_state, ramp_state, reads_after, List.range_succ]

theorem logged_ramp_loop_eq (clk : Nat → Nat) (h : clock_advances clk) (x : Run) (fuel : Nat)
    (hf : reads_after clk h x.room.reads 11 ≤ fuel) :
    ∀ m k n, k + m = 11 → m < n →
      logged_ramp_loop fuel clk n (10 * k) (logged_ramp_state clk h x k) =
        some (logged_ramp_state clk h x 11) := by
  intro m
  induction m with
  | zero =>
    intro k n hk hn
    obtain ⟨n, rfl⟩ := Nat.exists_eq_succ_of_ne_zero (Nat.pos_iff_ne_zero.mp hn)
    have : k = 11 := by omega
    subst this
    simp [logged_ramp_loop]
  | succ m ih =>
    intro k n hk hn
    obtain ⟨n, rfl⟩ := Nat.exists_eq_succ_of_ne_zero (Nat.pos_iff_ne_zero.mp (by omega : 0 < n))
    have hk10 : 10 * k ≤ 100 := by omega
    have hnext : (10 * k + 10) % 256 = 10 * (k + 1) := by omega
    simp only [logged_ramp_loop, hk10, if_true,
      logged_ramp_state_step clk h x k fuel (by omega) hf, hnext]
    exact ih (k + 1) n (by omega) (by omega)


theorem calls_append (a b : List Obs) : calls (a ++ b) = calls a ++ calls b := by
  induction a with
  | nil => simp [calls]
  | cons o os ih => cases o <;> simp [calls, ih]

theorem calls_map_call (l : List Event) : calls (l.map Obs.call) = l := by
  induction l with
  | nil => simp [calls]
  | cons e es ih => simp [calls, ih]

theorem calls_map_tick (f : Nat → Nat) (l : List Nat) :
    calls (l.map (fun i => Obs.tick (f i))) = [] := by
  induction l with
  | nil => simp [calls]
  | cons i is ih => simp [calls, ih]

theorem calls_ramp_log (clk : Nat → Nat) (s e : Nat → Nat) :
    ∀ n, calls ((List.range n).flatMap (fun k =>
        (ramp_line (10 * k)).map Obs.call ++ wait_ticks clk (s k) (e k))) =
      (List.range n).flatMap (fun k => ramp_line (10 * k)) := by
  intro n
  induction n with
  | zero => simp [calls]
  | succ n ih =>
    simp only [List.range_succ, List.flatMap_append, calls_append, ih]
    simp [calls_append, calls_map_call, wait_ticks, calls_map_tick]

theorem exit_reading_le (clk : Nat → Nat) (h : clock_advances clk) (r0 : Nat) (k n : Nat)
    (hk : k ≤ n) :
    exit_reading clk h (reads_after clk h r0 k) ≤ exit_reading clk h (reads_after clk h r0 n) := by
  rcases Nat.eq_or_lt_of_le hk with heq | hlt
  · rw [heq]
  · have h1 := reads_after_lt_succ clk h r0 k
    have h2 := reads_after_mono clk h r0 n (k + 1) (by omega)
    have h3 := (exit_reading_spec clk h (reads_after clk h r0 n)).1
    omega

theorem ramp_elapsed (clk : Nat → Nat) (h : clock_advances clk) (r0 n : Nat)
    (hmono : ∀ i j, i ≤ j → j ≤ exit_reading clk h (reads_after clk h r0 n) → clk i ≤ clk j)
    (hnowrap : ∀ i, i ≤ exit_reading clk h (reads_after clk h r0 n) → clk i < 4294967296) :
    ∀ k, k ≤ n →
      clk r0 + 500 * (k + 1) ≤ clk (exit_reading clk h (reads_after clk h r0 k)) := by
  intro k
  induction k with
  | zero =>
    intro hk
    obtain ⟨a1, a2, -⟩ := exit_reading_spec clk h (reads_after clk h r0 0)
    have hle := exit_reading_le clk h r0 0 n hk
    simp only [reads_after] at a1 a2 hle ⊢
    have b1 := hmono r0 _ (by omega) hle
    have b2 := hnowrap _ hle
    have b3 := hnowrap r0 (by omega)
    simp only [sub32] at a2
    omega
  | succ k ih =>
    intro hk
    have ih1 := ih (by omega)
    obtain ⟨a1, a2, -⟩ := exit_reading_spec clk h (reads_after clk h r0 (k + 1))
    have hle := exit_reading_le clk h r0 (k + 1) n hk
    have hs : reads_after clk h r0 (k + 1) = exit_reading clk h (reads_after clk h r0 k) + 1 := by
      simp [reads_after]
    have b1 := hmono (reads_after clk h r0 (k + 1)) _ (by omega) hle
    have b2 := hnowrap _ hle
    have b3 := hnowrap (reads_after clk h r0 (k + 1)) (by omega)
    have b4 := hmono (exit_reading clk h (reads_after clk h r0 k))
      (reads_after clk h r0 (k + 1)) (by omega) (by omega)
    simp only [sub32] at a2
    omega

theorem linear_schedule (s e : Nat → Nat) (r0 : Nat) (hs0 : s 0 = r0)
    (hstep : ∀ k, k < 11 →
      s k < e k ∧
      500 ≤ sub32 (500 * e k % 4294967296) (500 * s k % 4294967296) ∧
      (∀ i, s k < i → i < e k →
        sub32 (500 * i % 4294967296) (500 * s k % 4294967296) < 500) ∧
      s (k + 1) = e k + 1) :
    ∀ k, k < 11 → s k = r0 + 2 * k ∧ e k = r0 + 2 * k + 1 := by
  have hexit : ∀ k, k < 11 → e k = s k + 1 := by
    intro k hk
    obtain ⟨a1, -, a3, -⟩ := hstep k hk
    by_contra hne
    have := a3 (s k + 1) (by omega) (by omega)
    simp only [sub32] at this
    omega
  intro k
  induction k with
  | zero => intro hk; exact ⟨by omega, by rw [hexit 0 hk]; omega⟩
  | succ k ih =>
    intro hk
    obtain ⟨b1, b2⟩ := ih (by omega)
    have c := (hstep k (by omega)).2.2.2
    have d := hexit (k + 1) hk
    omega

/-! ## Initialisation and status report -/

/-- Claim C11: for a `PWM_INITIAL_DUTY` that fits the `uint8_t` it initialises,
and from every prior room, `room_control_app_init` leaves the state
`ROOM_IDLE` and the recorded duty `PWM_INITIAL_DUTY`; its driver calls are one
PWM write of that value, the four banner strings and then the status report of
an idle room, so that the serial text ends with the line
`Estado actual de la sala: VACÍA`. -/
theorem app_init_result (PWM_INITIAL_DUTY : Nat) (w : Room) (hP : PWM_INITIAL_DUTY < 256) :
    room_control_app_init PWM_INITIAL_DUTY w =
      { current_state := ROOM_IDLE, led_on_time := w.led_on_time,
        g_pwm_duty := PWM_INITIAL_DUTY, reads := w.reads,
        trace := w.trace ++
          [Event.pwm PWM_INITIAL_DUTY,
           Event.str "Controlador de Sala v2.0",
           Event.str "Sistema inicializado:\r\n",
           Event.str "PWM: 20%\r\n",
           Event.str "Puerta cerrada\r\n",
           Event.str "Estado actual de la sala: ",
           Event.str "VACÍA\r\n"] } ∧
    room_control_app_init PWM_INITIAL_DUTY w =
      room_control_send_status
        { current_state := ROOM_IDLE, led_on_time := w.led_on_time,
          g_pwm_duty := PWM_INITIAL_DUTY, reads := w.reads,
          trace := w.trace ++
            [Event.pwm PWM_INITIAL_DUTY,
             Event.str "Controlador de Sala v2.0",
             Event.str "Sistema inicializado:\r\n",
             Event.str "PWM: 20%\r\n",
             Event.str "Puerta cerrada\r\n"] } ∧
    pwmWrites
        [Event.pwm PWM_INITIAL_DUTY,
         Event.str "Controlador de Sala v2.0",
         Event.str "Sistema inicializado:\r\n",
         Event.str "PWM: 20%\r\n",
         Event.str "Puerta cerrada\r\n",
         Event.str "Estado actual de la sala: ",
         Event.str "VACÍA\r\n"] = [PWM_INITIAL_DUTY] ∧
    serial
        [Event.pwm PWM_INITIAL_DUTY,
         Event.str "Controlador de Sala v2.0",
         Event.str "Sistema inicializado:\r\n",
         Event.str "PWM: 20%\r\n",
         Event.str "Puerta cerrada\r\n",
         Event.str "Estado actual de la sala: ",
         Event.str "VACÍA\r\n"] =
      ("Controlador de Sala v2.0Sistema inicializado:\r\nPWM: 20%\r\nPuerta cerrada\r\n" ++
       "Estado actual de la sala: VACÍA\r\n").toList := by
  have h : PWM_INITIAL_DUTY % 256 = PWM_INITIAL_DUTY := Nat.mod_eq_of_lt hP
  refine ⟨?_, ?_, by simp [pwmWrites], ?_⟩
  · simp [room_control_app_init, room_control_send_status, uart_send_string, room_set_pwm,
      tim3_ch1_pwm_set_duty_cycle, h]
  · simp [room_control_app_init, room_control_send_status, uart_send_string, room_set_pwm,
      tim3_ch1_pwm_set_duty_cycle, h]
  · show serial [Event.str "Controlador de Sala v2.0", Event.str "Sistema inicializado:\r\n",
      Event.str "PWM: 20%\r\n", Event.str "Puerta cerrada\r\n",
      Event.str "Estado actual de la sala: ", Event.str "VACÍA\r\n"] = _
    decide

/-- Instance of C11: initial duty 20, called on an occupied room. -/
theorem app_init_result_witness :
    20 < 256 ∧
    room_control_app_init 20 ⟨ROOM_OCCUPIED, 5, 100, 3, [Event.pwm 100]⟩ =
      { current_state := ROOM_IDLE, led_on_time := 5, g_pwm_duty := 20, reads := 3,
        trace := [Event.pwm 100] ++
          [Event.pwm 20,
           Event.str "Controlador de Sala v2.0",
           Event.str "Sistema inicializado:\r\n",
           Event.str "PWM: 20%\r\n",
           Event.str "Puerta cerrada\r\n",
           Event.str "Estado actual de la sala: ",
           Event.str "VACÍA\r\n"] } :=
  ⟨by decide,
   (app_init_result 20 ⟨ROOM_OCCUPIED, 5, 100, 3, [Event.pwm 100]⟩ (by decide)).1⟩

/-- Claim C12: from every room, `room_control_send_status` makes exactly two
driver calls, the text `Estado actual de la sala: ` and then `VACÍA` for an
idle room or `OCUPADA` for an occupied one (each with its line terminator),
and changes nothing else; the commands `S` and `s` do exactly that call. -/
theorem send_status_report (fuel : Nat) (clk : Nat → Nat) (w : Room) :
    room_control_send_status w =
      { current_state := w.current_state, led_on_time := w.led_on_time,
        g_pwm_duty := w.g_pwm_duty, reads := w.reads,
        trace := w.trace ++
          [Event.str "Estado actual de la sala: ",
           Event.str (if w.current_state = ROOM_IDLE then "VACÍA\r\n" else "OCUPADA\r\n")] } ∧
    room_control_on_uart_receive fuel clk 'S' w = some (room_control_send_status w) ∧
    room_control_on_uart_receive fuel clk 's' w = some (room_control_send_status w) := by
  refine ⟨?_, by simp [room_control_on_uart_receive], by simp [room_control_on_uart_receive]⟩
  unfold room_control_send_status
  by_cases h : w.current_state = ROOM_IDLE <;> simp [uart_send_string, h]

/-- The line `PWM: n%` is the line `PWM: 20%` only for `n` = 20. -/
theorem pwm_line_twenty (n : Nat) (hn : n ≤ 100) :
    ("PWM: " ++ Nat.repr n ++ "%\r\n" = "PWM: 20%\r\n") ↔ n = 20 := by
  interval_cases n <;> decide

/-- Claim C20 as stated fails: with `PWM_INITIAL_DUTY` = 50,
`room_control_app_init` records 50 and writes 50 to the PWM driver, its banner
carries the line `PWM: 20%`, and the line for the recorded duty is not among
its driver calls. -/
theorem init_banner_not_duty :
    (room_control_app_init 50 (boot 50)).g_pwm_duty = 50 ∧
    pwmWrites (room_control_app_init 50 (boot 50)).trace = [50] ∧
    Event.str "PWM: 20%\r\n" ∈ (room_control_app_init 50 (boot 50)).trace ∧
    ¬ (Event.str ("PWM: " ++
          Nat.repr (room_control_app_init 50 (boot 50)).g_pwm_duty ++ "%\r\n") ∈
        (room_control_app_init 50 (boot 50)).trace) := by
  decide

/-- Claim C20, amended: for every `PWM_INITIAL_DUTY` from 0 to 100,
`room_control_app_init` records that value and makes one PWM write of it,
while the only percentage line `PWM: n%` (`n` from 0 to 100) among its driver
calls is the fixed one for `n` = 20; so the announced percentage is the duty
written exactly when `PWM_INITIAL_DUTY` is 20. -/
theorem init_banner_announces_twenty (PWM_INITIAL_DUTY n : Nat)
    (hP : PWM_INITIAL_DUTY ≤ 100) (hn : n ≤ 100) :
    (room_control_app_init PWM_INITIAL_DUTY (boot PWM_INITIAL_DUTY)).g_pwm_duty
      = PWM_INITIAL_DUTY ∧
    pwmWrites (room_control_app_init PWM_INITIAL_DUTY (boot PWM_INITIAL_DUTY)).trace
      = [PWM_INITIAL_DUTY] ∧
    (Event.str ("PWM: " ++ Nat.repr n ++ "%\r\n") ∈
        (room_control_app_init PWM_INITIAL_DUTY (boot PWM_INITIAL_DUTY)).trace ↔ n = 20) ∧
    (Event.str ("PWM: " ++ Nat.repr PWM_INITIAL_DUTY ++ "%\r\n") ∈
        (room_control_app_init PWM_INITIAL_DUTY (boot PWM_INITIAL_DUTY)).trace ↔
      PWM_INITIAL_DUTY = 20) := by
  have h : PWM_INITIAL_DUTY % 256 = PWM_INITIAL_DUTY := by omega
  have key : ∀ m, m ≤ 100 →
      (Event.str ("PWM: " ++ Nat.repr m ++ "%\r\n") ∈
        (room_control_app_init PWM_INITIAL_DUTY (boot PWM_INITIAL_DUTY)).trace ↔ m = 20) := by
    intro m hm
    rw [← pwm_line_twenty m hm]
    have e : (room_control_app_init PWM_INITIAL_DUTY (boot PWM_INITIAL_DUTY)).trace =
        [Event.pwm PWM_INITIAL_DUTY, Event.str "Controlador de Sala v2.0",
         Event.str "Sistema inicializado:\r\n", Event.str "PWM: 20%\r\n",
         Event.str "Puerta cerrada\r\n", Event.str "Estado actual de la sala: ",
         Event.str "VACÍA\r\n"] := by
      simp [room_control_app_init, room_control_send_status, uart_send_string, room_set_pwm,
        tim3_ch1_pwm_set_duty_cycle, boot, h]
    rw [e]
    simp only [List.mem_cons, List.mem_singleton, Event.str.injEq, List.not_mem_nil,
      reduceCtorEq, false_or, or_false]
    interval_cases m <;> decide
  refine ⟨?_, ?_, key n hn, key PWM_INITIAL_DUTY hP⟩
  · simp [room_control_app_init, room_control_send_status, uart_send_string, room_set_pwm,
      tim3_ch1_pwm_set_duty_cycle, boot, h]
  · simp [room_control_app_init, room_control_send_status, uart_send_string, room_set_pwm,
      tim3_ch1_pwm_set_duty_cycle, boot, h, pwmWrites]

/-- Instance of the amended C20: with `PWM_INITIAL_DUTY` = 50 the duty recorded
and written is 50, the line for 20 is sent and the line for 50 is not. -/
theorem init_banner_announces_twenty_witness :
    (50 ≤ 100 ∧ 20 ≤ 100) ∧
    ((room_control_app_init 50 (boot 50)).g_pwm_duty = 50 ∧
     pwmWrites (room_control_app_init 50 (boot 50)).trace = [50] ∧
     (Event.str ("PWM: " ++ Nat.repr 20 ++ "%\r\n") ∈
        (room_control_app_init 50 (boot 50)).trace ↔ 20 = 20) ∧
     (Event.str ("PWM: " ++ Nat.repr 50 ++ "%\r\n") ∈
        (room_control_app_init 50 (boot 50)).trace ↔ 50 = 20)) :=
  ⟨by decide, init_banner_announces_twenty 50 20 (by decide) (by decide)⟩

/-! ## Invariants over all calls -/

/-- Claim C13: when `PWM_INITIAL_DUTY` is at most 100, in every room reachable
from initialisation by entry-point calls the recorded duty is at most 100 and
so is every duty ever handed to the PWM driver. -/
theorem reachable_duty_in_range (PWM_INITIAL_DUTY LED_TIMEOUT_MS : Nat) (clk : Nat → Nat)
    (w : Room) (hP : PWM_INITIAL_DUTY ≤ 100)
    (hw : Reachable PWM_INITIAL_DUTY LED_TIMEOUT_MS clk w) :
    w.g_pwm_duty ≤ 100 ∧ ∀ d ∈ pwmWrites w.trace, d ≤ 100 := by
  induction hw with
  | init => exact init_in_range PWM_INITIAL_DUTY hP
  | call fuel c w w1 _ hstep ih => exact step_preserves_range fuel _ clk c w w1 hstep ih

/-- Instance of C13: initial duty 20, the room after initialisation and one
button press. -/
theorem reachable_duty_in_range_witness :
    20 ≤ 100 ∧
    Reachable 20 3000 (fun i => 500 * i)
      (room_control_on_button_press (fun i => 500 * i) (room_control_app_init 20 (boot 20))) ∧
    (room_control_on_button_press (fun i => 500 * i)
      (room_control_app_init 20 (boot 20))).g_pwm_duty ≤ 100 ∧
    ∀ d ∈ pwmWrites (room_control_on_button_press (fun i => 500 * i)
      (room_control_app_init 20 (boot 20))).trace, d ≤ 100 :=
  ⟨by decide,
   Reachable.call 0 Call.button _ _ Reachable.init rfl,
   reachable_duty_in_range 20 3000 (fun i => 500 * i) _ (by decide)
     (Reachable.call 0 Call.button _ _ Reachable.init rfl)⟩

/-- Claim C14: for every entry-point call that returns, from every room: a
change from idle to occupied comes only from a button press or the command `O`
or `o`; a change from occupied to idle comes only from a button press, the
command `I` or `i`, or `room_control_update` with a 32-bit elapsed time of at
least `LED_TIMEOUT_MS`; every other call leaves the occupancy state as it
was. -/
theorem occupancy_transitions (fuel LED_TIMEOUT_MS : Nat) (clk : Nat → Nat) (c : Call)
    (w w1 : Room) (h : step fuel LED_TIMEOUT_MS clk c w = some w1) :
    (w.current_state = ROOM_IDLE → w1.current_state = ROOM_OCCUPIED →
      c = Call.button ∨ c = Call.uart 'O' ∨ c = Call.uart 'o') ∧
    (w.current_state = ROOM_OCCUPIED → w1.current_state = ROOM_IDLE →
      c = Call.button ∨ c = Call.uart 'I' ∨ c = Call.uart 'i' ∨
      (c = Call.update ∧
        LED_TIMEOUT_MS ≤ sub32 (systick_get_ms clk w).1 w.led_on_time)) ∧
    (c ≠ Call.button → c ≠ Call.uart 'O' → c ≠ Call.uart 'o' → c ≠ Call.uart 'I' →
      c ≠ Call.uart 'i' →
      ¬ (c = Call.update ∧ w.current_state = ROOM_OCCUPIED ∧
          LED_TIMEOUT_MS ≤ sub32 (systick_get_ms clk w).1 w.led_on_time) →
      w1.current_state = w.current_state) := by
  cases c with
  | button =>
    exact ⟨fun _ _ => Or.inl rfl, fun _ _ => Or.inl rfl, fun hne => absurd rfl hne⟩
  | uart ch =>
    rcases (uart_receive_frame fuel clk ch w w1 h).2 with
      ⟨hc, hs, _⟩ | ⟨hc, hs, _⟩ | ⟨⟨_, _⟩, hs, _⟩
    · refine ⟨fun _ _ => ?_, fun _ h1 => ?_, fun _ hO ho _ _ _ => ?_⟩
      · rcases hc with rfl | rfl
        · exact Or.inr (Or.inl rfl)
        · exact Or.inr (Or.inr rfl)
      · rw [hs] at h1; exact absurd h1 (by decide)
      · rcases hc with rfl | rfl
        · exact absurd rfl hO
        · exact absurd rfl ho
    · refine ⟨fun _ h1 => ?_, fun _ _ => ?_, fun _ _ _ hI hi _ => ?_⟩
      · rw [hs] at h1; exact absurd h1 (by decide)
      · rcases hc with rfl | rfl
        · exact Or.inr (Or.inl rfl)
        · exact Or.inr (Or.inr (Or.inl rfl))
      · rcases hc with rfl | rfl
        · exact absurd rfl hI
        · exact absurd rfl hi
    · refine ⟨fun h0 h1 => ?_, fun h0 h1 => ?_, fun _ _ _ _ _ _ => hs⟩
      · rw [hs, h0] at h1; exact absurd h1 (by decide)
      · rw [hs, h0] at h1; exact absurd h1 (by decide)
  | update =>
    have e : room_control_update LED_TIMEOUT_MS clk w = w1 := Option.some.inj h
    subst e
    have f := (update_frame LED_TIMEOUT_MS clk w).2.2
    refine ⟨fun h0 h1 => ?_, fun h0 h1 => ?_, fun _ _ _ _ _ hn => ?_⟩
    · have := (f (by rw [h0, h1]; decide)).1
      rw [h0] at this
      exact absurd this (by decide)
    · exact Or.inr (Or.inr (Or.inr ⟨rfl, (f (by rw [h0, h1]; decide)).2⟩))
    · by_contra hne
      exact hn ⟨rfl, f hne⟩
  | status =>
    have e : room_control_send_status w = w1 := Option.some.inj h
    subst e
    have f := (send_status_frame w).2.1
    refine ⟨fun h0 h1 => ?_, fun h0 h1 => ?_, fun _ _ _ _ _ _ => f⟩
    · rw [f, h0] at h1; exact absurd h1 (by decide)
    · rw [f, h0] at h1; exact absurd h1 (by decide)

/-- Instance of C14: an update 5000 ms after occupation with a timeout of
3000 ms turns the occupied room idle. -/
theorem occupancy_transitions_witness :
    step 0 3000 (fun _ => 5000) Call.update ⟨ROOM_OCCUPIED, 0, 100, 1, []⟩ =
      some ⟨ROOM_IDLE, 0, 100, 2, [Event.pwm 0, Event.str "Timeout: Sala vacía\r\n"]⟩ ∧
    ((Call.update = Call.button ∨ Call.update = Call.uart 'I' ∨ Call.update = Call.uart 'i' ∨
      (Call.update = Call.update ∧
        3000 ≤ sub32 (systick_get_ms (fun _ => 5000) ⟨ROOM_OCCUPIED, 0, 100, 1, []⟩).1
          (⟨ROOM_OCCUPIED, 0, 100, 1, []⟩ : Room).led_on_time))) :=
  ⟨by decide,
   (occupancy_transitions 0 3000 (fun _ => 5000) Call.update ⟨ROOM_OCCUPIED, 0, 100, 1, []⟩
      ⟨ROOM_IDLE, 0, 100, 2, [Event.pwm 0, Event.str "Timeout: Sala vacía\r\n"]⟩
      (by decide)).2.1 rfl rfl⟩

/-- Claim C19: for every entry-point call that returns, from every room:
unless the call is a button press in an idle room or the command `O` or `o`,
`led_on_time` is left as it was; and those calls set it to the clock reading
they take. -/
theorem led_on_time_writers (fuel LED_TIMEOUT_MS : Nat) (clk : Nat → Nat) (c : Call)
    (w w1 : Room) (h : step fuel LED_TIMEOUT_MS clk c w = some w1) :
    (¬ (c = Call.button ∧ w.current_state = ROOM_IDLE) → c ≠ Call.uart 'O' →
      c ≠ Call.uart 'o' → w1.led_on_time = w.led_on_time) ∧
    ((c = Call.button ∧ w.current_state = ROOM_IDLE) ∨ c = Call.uart 'O' ∨ c = Call.uart 'o' →
      w1.led_on_time = (systick_get_ms clk w).1) := by
  cases c with
  | button =>
    have e : room_control_on_button_press clk w = w1 := Option.some.inj h
    subst e
    have f := button_press_frame clk w
    refine ⟨fun hn _ _ => f.2.2 (fun hs => hn ⟨rfl, hs⟩), fun hc => ?_⟩
    rcases hc with ⟨_, hs⟩ | hc | hc
    · exact f.2.1 hs
    · exact absurd hc (by simp)
    · exact absurd hc (by simp)
  | uart ch =>
    rcases (uart_receive_frame fuel clk ch w w1 h).2 with
      ⟨hc, _, hl⟩ | ⟨hc, _, hl⟩ | ⟨⟨hnO, _⟩, _, hl⟩
    · refine ⟨fun _ hO ho => ?_, fun _ => hl⟩
      rcases hc with rfl | rfl
      · exact absurd rfl hO
      · exact absurd rfl ho
    · refine ⟨fun _ _ _ => hl, fun hc2 => ?_⟩
      rcases hc2 with ⟨hb, _⟩ | hc2 | hc2
      · exact absurd hb (by simp)
      · rcases hc with rfl | rfl <;> exact absurd hc2 (by decide)
      · rcases hc with rfl | rfl <;> exact absurd hc2 (by decide)
    · refine ⟨fun _ _ _ => hl, fun hc2 => ?_⟩
      rcases hc2 with ⟨hb, _⟩ | hc2 | hc2
      · exact absurd hb (by simp)
      · exact absurd (Or.inl (Call.uart.inj hc2)) hnO
      · exact absurd (Or.inr (Call.uart.inj hc2)) hnO
  | update =>
    have e : room_control_update LED_TIMEOUT_MS clk w = w1 := Option.some.inj h
    subst e
    refine ⟨fun _ _ _ => (update_frame LED_TIMEOUT_MS clk w).2.1, fun hc => ?_⟩
    rcases hc with ⟨hb, _⟩ | hc | hc <;> simp at *
  | status =>
    have e : room_control_send_status w = w1 := Option.some.inj h
    subst e
    refine ⟨fun _ _ _ => (send_status_frame w).2.2, fun hc => ?_⟩
    rcases hc with ⟨hb, _⟩ | hc | hc <;> simp at *

/-- Instance of C19: the ramp run in an occupied room returns after 22 readings
and leaves `led_on_time` at 7. -/
theorem led_on_time_writers_witness :
    step 12 3000 (fun i => 500 * i) (Call.uart 'G') ⟨ROOM_OCCUPIED, 7, 50, 1, []⟩ =
      some ⟨ROOM_OCCUPIED, 7, 100, 23, (List.range 11).flatMap (fun k => ramp_line (10 * k))⟩ ∧
    (⟨ROOM_OCCUPIED, 7, 100, 23,
        (List.range 11).flatMap (fun k => ramp_line (10 * k))⟩ : Room).led_on_time =
      (⟨ROOM_OCCUPIED, 7, 50, 1, []⟩ : Room).led_on_time :=
  ⟨by decide,
   (led_on_time_writers 12 3000 (fun i => 500 * i) (Call.uart 'G')
      ⟨ROOM_OCCUPIED, 7, 50, 1, []⟩
      ⟨ROOM_OCCUPIED, 7, 100, 23, (List.range 11).flatMap (fun k => ramp_line (10 * k))⟩
      (by decide)).1 (by simp) (by simp) (by simp)⟩

/-! ## Letter case and the two ways to change occupancy -/

/-- Claim C15: for each of the letters H, L, O, I, S and G, from every room
and with the same clock and loop bound, the upper-case and the lower-case
command give the same result: the same room, with the same record of driver
calls, or no return for both. -/
theorem uart_case_insensitive (fuel : Nat) (clk : Nat → Nat) (w : Room) :
    room_control_on_uart_receive fuel clk 'H' w = room_control_on_uart_receive fuel clk 'h' w ∧
    room_control_on_uart_receive fuel clk 'L' w = room_control_on_uart_receive fuel clk 'l' w ∧
    room_control_on_uart_receive fuel clk 'O' w = room_control_on_uart_receive fuel clk 'o' w ∧
    room_control_on_uart_receive fuel clk 'I' w = room_control_on_uart_receive fuel clk 'i' w ∧
    room_control_on_uart_receive fuel clk 'S' w = room_control_on_uart_receive fuel clk 's' w ∧
    room_control_on_uart_receive fuel clk 'G' w = room_control_on_uart_receive fuel clk 'g' w := by
  simp [room_control_on_uart_receive]

/-- Claim C16: from an idle room a button press returns the same room as the
command `O` (occupied, duty 100, `led_on_time` the reading taken, PWM write 100
and the message `Sala ocupada`); from an occupied room it returns the same room
as the command `I` (idle, duty 0, PWM write 0 and the message `Sala vacía`). -/
theorem button_matches_commands (fuel : Nat) (clk : Nat → Nat) (w : Room) :
    (w.current_state = ROOM_IDLE →
      some (room_control_on_button_press clk w) = room_control_on_uart_receive fuel clk 'O' w ∧
      room_control_on_button_press clk w =
        { current_state := ROOM_OCCUPIED, led_on_time := (systick_get_ms clk w).1,
          g_pwm_duty := 100, reads := w.reads + 1,
          trace := w.trace ++ [Event.pwm 100, Event.str "Sala ocupada\r\n"] }) ∧
    (w.current_state = ROOM_OCCUPIED →
      some (room_control_on_button_press clk w) = room_control_on_uart_receive fuel clk 'I' w ∧
      room_control_on_button_press clk w =
        { current_state := ROOM_IDLE, led_on_time := w.led_on_time,
          g_pwm_duty := 0, reads := w.reads,
          trace := w.trace ++ [Event.pwm 0, Event.str "Sala vacía\r\n"] }) := by
  constructor <;> intro h <;>
    simp [room_control_on_button_press, room_control_on_uart_receive, room_set_pwm,
      tim3_ch1_pwm_set_duty_cycle, uart_send_string, systick_get_ms, h]

/-- Instance of C16: an idle room and an occupied room. -/
theorem button_matches_commands_witness :
    (some (room_control_on_button_press (fun _ => 42) ⟨ROOM_IDLE, 0, 20, 0, []⟩) =
      room_control_on_uart_receive 0 (fun _ => 42) 'O' ⟨ROOM_IDLE, 0, 20, 0, []⟩) ∧
    (some (room_control_on_button_press (fun _ => 42) ⟨ROOM_OCCUPIED, 7, 100, 1, []⟩) =
      room_control_on_uart_receive 0 (fun _ => 42) 'I' ⟨ROOM_OCCUPIED, 7, 100, 1, []⟩) :=
  ⟨((button_matches_commands 0 (fun _ => 42) ⟨ROOM_IDLE, 0, 20, 0, []⟩).1 rfl).1,
   ((button_matches_commands 0 (fun _ => 42) ⟨ROOM_OCCUPIED, 7, 100, 1, []⟩).2 rfl).1⟩

/-! ## Timing -/

/-- Claim C17: when the clock keeps advancing, the ramp command (`G` or `g`)
returns for every large enough bound on its loops, and the observations it
makes, in program order, are, for each of the eleven steps `k` (the last, 100%,
included): the PWM write and the line of the duty `10 * k`, and only then the
readings of the tick counter with indices `s k` to `e k`.  Reading `s k` is the
start reading, taken right after the line; reading `e k` is the first later one
that is at least 500 ms ahead of it modulo 2^32, and it ends the step: the
next step starts at reading `e k + 1`, and the command returns after reading
`e 10`.  Erasing the readings from the observed ramp gives the ramp of
`room_control_on_uart_receive`.  If the clock neither decreases nor wraps up
to reading `e 10`, that reading is at least 5500 ms after reading `s 0`. -/
theorem ramp_blocks (clk : Nat → Nat) (w : Room) (h : clock_advances clk) :
    ∃ (f0 : Nat) (s e : Nat → Nat) (w1 : Room),
      s 0 = w.reads ∧
      (∀ k, k < 11 →
        s k < e k ∧
        500 ≤ sub32 (clk (e k) % 4294967296) (clk (s k) % 4294967296) ∧
        (∀ i, s k < i → i < e k →
          sub32 (clk i % 4294967296) (clk (s k) % 4294967296) < 500) ∧
        s (k + 1) = e k + 1) ∧
      (∀ fuel, f0 ≤ fuel →
        logged_ramp_loop fuel clk fuel 0 { room := w, log := [] } =
          some { room := w1,
                 log := (List.range 11).flatMap (fun k =>
                   (ramp_line (10 * k)).map Obs.call ++ wait_ticks clk (s k) (e k)) } ∧
        room_control_on_uart_receive fuel clk 'G' w = some w1 ∧
        room_control_on_uart_receive fuel clk 'g' w = some w1) ∧
      (∀ (fuel n d : Nat) (x : Run),
        (logged_ramp_loop fuel clk n d x).map Run.room = ramp_loop fuel clk n d x.room) ∧
      w1.trace = w.trace ++ calls ((List.range 11).flatMap (fun k =>
        (ramp_line (10 * k)).map Obs.call ++ wait_ticks clk (s k) (e k))) ∧
      w1.reads = e 10 + 1 ∧
      ((∀ i j, i ≤ j → j ≤ e 10 → clk i ≤ clk j) → (∀ i, i ≤ e 10 → clk i < 4294967296) →
        clk (s 0) + 5500 ≤ clk (e 10)) := by
  refine ⟨reads_after clk h w.reads 11 + 12, fun k => reads_after clk h w.reads k,
    fun k => exit_reading clk h (reads_after clk h w.reads k), ramp_state clk h w 11,
    rfl, ?_, ?_, ?_, ?_, ?_, ?_⟩
  · intro k _
    obtain ⟨a1, a2, a3⟩ := exit_reading_spec clk h (reads_after clk h w.reads k)
    exact ⟨a1, a2, a3, rfl⟩
  · intro fuel hf
    have hl := logged_ramp_loop_eq clk h { room := w, log := [] } fuel (by simp; omega)
      11 0 fuel (by omega) (by omega)
    rw [logged_ramp_state_zero] at hl
    have hr := ramp_loop_eq clk h w fuel (by omega) 11 0 fuel (by omega) (by omega)
    rw [ramp_state_zero] at hr
    refine ⟨?_, by simp [room_control_on_uart_receive, hr],
      by simp [room_control_on_uart_receive, hr]⟩
    simpa [logged_ramp_state] using hl
  · intro fuel n d x
    exact logged_ramp_loop_room fuel clk n d x
  · rw [calls_ramp_log]
    simp [ramp_state]
  · simp [ramp_state, reads_after]
  · intro hmono hnowrap
    exact ramp_elapsed clk h w.reads 10 hmono hnowrap 10 (Nat.le_refl _)

/-- Instance of C17: a clock gaining 500 ms per reading, from the power-on
variables.  With the bound 12 the observed ramp returns after 22 readings, each
line followed by its start reading and one later reading 500 ms ahead; the
last reading has index 21, before which this clock neither decreases nor
wraps, and it is 10500 ms after the first. -/
theorem ramp_blocks_witness :
    clock_advances (fun i => 500 * i) ∧
    logged_ramp_loop 12 (fun i => 500 * i) 12 0 { room := boot 20, log := [] } =
      some { room := { current_state := ROOM_IDLE, led_on_time := 0, g_pwm_duty := 100,
                       reads := 22,
                       trace := (List.range 11).flatMap (fun k => ramp_line (10 * k)) },
             log := (List.range 11).flatMap (fun k =>
               (ramp_line (10 * k)).map Obs.call ++
                 [Obs.tick (1000 * k), Obs.tick (1000 * k + 500)]) } ∧
    (∃ (f0 : Nat) (e10 : Nat) (w1 : Room),
      (∀ fuel, f0 ≤ fuel →
        room_control_on_uart_receive fuel (fun i => 500 * i) 'G' (boot 20) = some w1) ∧
      w1.reads = e10 + 1 ∧ e10 = 21 ∧
      (fun i => 500 * i) 0 + 5500 ≤ (fun i => 500 * i) e10) := by
  refine ⟨clock_advances_linear, by decide, ?_⟩
  obtain ⟨f0, s, e, w1, hs0, hstep, hrun, -, -, hreads, helapsed⟩ :=
    ramp_blocks (fun i => 500 * i) (boot 20) clock_advances_linear
  have hsched := linear_schedule s e 0 (by simpa [boot] using hs0) hstep 10 (by omega)
  have he : e 10 = 21 := by omega
  refine ⟨f0, e 10, w1, fun fuel hf => (hrun fuel hf).2.1, hreads, he, ?_⟩
  have := helapsed (fun i j hij _ => by omega) (fun i hi => by rw [he] at hi; omega)
  rw [hs0] at this
  simpa [boot] using this

/-- Claim C18: while the room is occupied, `room_control_update` fires the
timeout (state `ROOM_IDLE`, PWM write 0 and the timeout message) exactly when
the difference of the clock reading and `led_on_time`, taken modulo 2^32, is at
least `LED_TIMEOUT_MS`.  That difference is the integer difference reduced
modulo 2^32, and it equals the true elapsed time `e` whenever `e` is below
2^32, also when the counter has wrapped in between. -/
theorem update_timeout_wraps (LED_TIMEOUT_MS : Nat) (clk : Nat → Nat) (w : Room)
    (hocc : w.current_state = ROOM_OCCUPIED) :
    ((room_control_update LED_TIMEOUT_MS clk w).current_state = ROOM_IDLE ↔
      LED_TIMEOUT_MS ≤ sub32 (systick_get_ms clk w).1 w.led_on_time) ∧
    ((room_control_update LED_TIMEOUT_MS clk w).trace =
        w.trace ++ [Event.pwm 0, Event.str "Timeout: Sala vacía\r\n"] ↔
      LED_TIMEOUT_MS ≤ sub32 (systick_get_ms clk w).1 w.led_on_time) ∧
    (∀ a b : Nat, ((sub32 a b : Nat) : Int) = ((a : Int) - (b : Int)) % 4294967296) ∧
    (∀ t0 e : Nat, e < 4294967296 →
      sub32 ((t0 + e) % 4294967296) (t0 % 4294967296) = e) := by
  refine ⟨?_, ?_, ?_, ?_⟩
  · by_cases h : LED_TIMEOUT_MS ≤ sub32 (clk w.reads % 4294967296) w.led_on_time <;>
      simp [room_control_update, systick_get_ms, hocc, h, uart_send_string,
        tim3_ch1_pwm_set_duty_cycle]
  · by_cases h : LED_TIMEOUT_MS ≤ sub32 (clk w.reads % 4294967296) w.led_on_time <;>
      simp [room_control_update, systick_get_ms, hocc, h, uart_send_string,
        tim3_ch1_pwm_set_duty_cycle]
  · intro a b
    simp only [sub32]
    omega
  · intro t0 e he
    simp only [sub32]
    omega

/-- Instance of C18: occupied at tick 4294967000, read at tick 2704 after the
counter wrapped, 3000 ms later: with a timeout of 3000 ms the timeout fires. -/
theorem update_timeout_wraps_witness :
    (⟨ROOM_OCCUPIED, 4294967000, 100, 1, []⟩ : Room).current_state = ROOM_OCCUPIED ∧
    sub32 (systick_get_ms (fun _ => 2704) ⟨ROOM_OCCUPIED, 4294967000, 100, 1, []⟩).1
      (⟨ROOM_OCCUPIED, 4294967000, 100, 1, []⟩ : Room).led_on_time = 3000 ∧
    (room_control_update 3000 (fun _ => 2704)
      ⟨ROOM_OCCUPIED, 4294967000, 100, 1, []⟩).current_state = ROOM_IDLE :=
  ⟨rfl, by decide,
   (update_timeout_wraps 3000 (fun _ => 2704) ⟨ROOM_OCCUPIED, 4294967000, 100, 1, []⟩ rfl).1.2
     (by decide)⟩

end RoomControl
